import Mathlib

/-!
Shallow embedding of the orbiscast IPTV/streaming bot (TypeScript sources)
together with proofs about its specification.

Strings from the JavaScript side are modelled as `List Char` so that slicing,
splitting and regex-like scanning can be reasoned about structurally.
JavaScript numbers that hold integral values are modelled as `Int`
(with `Option Int` where `NaN`/absence is observable).
-/

namespace Orbiscast

/-- JavaScript strings, modelled as lists of characters. -/
abbrev JsString := List Char

/-- JavaScript whitespace characters (the ASCII ones relevant to `\s` and `trim`). -/
def isJsWs (c : Char) : Bool :=
  c = ' ' ∨ c = '\t' ∨ c = '\n' ∨ c = '\r' ∨ c = '\x0b' ∨ c = '\x0c'

/-- `String.prototype.trim`: strip whitespace from both ends. -/
def trimJs (s : JsString) : JsString :=
  ((s.dropWhile isJsWs).reverse.dropWhile isJsWs).reverse

/-- `String.prototype.startsWith`. -/
def startsWithJs (p s : JsString) : Bool :=
  List.isPrefixOf p s

/-- Value of a decimal digit character, `none` for non-digits. -/
def digitVal? (c : Char) : Option Nat :=
  if '0' ≤ c ∧ c ≤ '9' then some (c.toNat - 48) else none

/-- Fold a most-significant-first digit list into a number. -/
def digitsVal (ds : List Nat) : Nat :=
  ds.foldl (fun a d => a * 10 + d) 0

/-- The digit-prefix part of `parseInt`: the value of the longest prefix of
decimal digits, `none` (`NaN`) when there is none. -/
def parseDigits (t : JsString) : Option Int :=
  let ds := t.takeWhile (fun c => (digitVal? c).isSome)
  if ds = [] then none
  else some (digitsVal (ds.filterMap digitVal?) : Int)

/-- `parseInt(s)` (radix 10): skip leading whitespace, optional sign, then the
longest prefix of decimal digits; `none` models the `NaN` result. -/
def parseIntJS (s : JsString) : Option Int :=
  match s.dropWhile isJsWs with
  | [] => none
  | c :: r =>
    if c = '-' then (parseDigits r).map (fun n => -n)
    else if c = '+' then parseDigits r
    else parseDigits (c :: r)

/-- `ChannelEntry` from `src/interfaces/iptv.ts`.  Optional string fields are
modelled as `JsString` with `[]` standing for an absent/empty value (both are
falsy in the JavaScript truthiness tests the code performs on them);
`xui_id` is `Option Int` with `none` for `NaN`. -/
structure ChannelEntry where
  xui_id : Option Int
  tvg_id : JsString
  tvg_name : JsString
  tvg_logo : JsString
  group_title : JsString
  url : JsString
  created_at : Option JsString
  country : JsString
  deriving Repr, DecidableEq

/-- `ProgrammeEntry` from `src/interfaces/iptv.ts`, restricted to the fields
the staleness policy reads.  `created_at` is the epoch-milliseconds value of
the stored ISO creation timestamp (`none` models a missing/empty value, which
is falsy in the code's `!createdAt` test); `stop_timestamp` is `none` when the
stored field is not a number (the code guards with `typeof p.stop_timestamp
=== 'number'`). -/
structure ProgrammeEntry where
  channel : JsString
  title : JsString
  created_at : Option Int
  start_timestamp : Option Int
  stop_timestamp : Option Int
  deriving Repr, DecidableEq

/-! ### Fetcher (`src/modules/iptv/downloaders.ts`, `fetchWithRetry`)

The network is modelled as a function from the attempt number (1-based) to the
outcome of that attempt: a successful response with content, a response whose
`data` field is falsy (the `else` branch that only logs "Downloaded content
was empty"), or a thrown error (timeout / connection / other — all reach the
same `catch` block as far as control flow is concerned).  The cache holds the
blob stored under the single cache key involved in the call. -/

/-- Content buffers are byte/character strings. -/
abbrev Buffer := JsString

/-- Outcome of one `axios.get` attempt. -/
inductive AttemptOutcome where
  | success (content : Buffer)
  | empty
  | error
  deriving Repr, DecidableEq

/-- Observable events of a `fetchWithRetry` run. -/
inductive FetchEvent where
  | attempt (n : Nat)
  | delaySec (s : Nat)
  | cacheWrite (b : Buffer)
  | cacheFallback
  deriving Repr, DecidableEq

/-- Result of a `fetchWithRetry` run: returned value, final cache state and
the event trace. -/
structure FetchResult where
  result : Option Buffer
  cache : Option Buffer
  events : List FetchEvent
  deriving Repr, DecidableEq

/-- The `for (let attempt = 1; attempt <= maxRetries; attempt++)` loop of
`fetchWithRetry`, with the loop bound carried as the number of remaining
iterations (`remaining = maxRetries - attempt + 1`, so the loop guard
`attempt <= maxRetries` is `remaining > 0` and the retry test
`attempt < maxRetries` is `remaining ≠ 1`, i.e. `rem ≠ 0` under the
`remaining = rem + 1` pattern).  On success the content is cached
(`await cacheFile`) and returned; on a falsy `response.data` the loop just
continues; on a thrown error the code sleeps `retryDelay` seconds and doubles
the delay if retries remain, and otherwise returns `await getCachedFile(...)`;
falling off the end of the loop returns `null`. -/
def fetchLoop (env : Nat → AttemptOutcome) :
    Nat → Nat → Nat → Option Buffer → List FetchEvent → FetchResult
  | 0, _, _, cache, events => { result := none, cache := cache, events := events }
  | rem + 1, attempt, retryDelay, cache, events =>
      match env attempt with
      | .success c =>
          { result := some c, cache := some c
            events := events ++ [.attempt attempt, .cacheWrite c] }
      | .empty =>
          fetchLoop env rem (attempt + 1) retryDelay cache
            (events ++ [.attempt attempt])
      | .error =>
          if rem ≠ 0 then
            fetchLoop env rem (attempt + 1) (retryDelay * 2) cache
              (events ++ [.attempt attempt, .delaySec retryDelay])
          else
            { result := cache, cache := cache
              events := events ++ [.attempt attempt, .cacheFallback] }

/-- `fetchWithRetry(url, cacheFileName)`: `maxRetries = 3`, initial
`retryDelay = 5` seconds. -/
def fetchWithRetry (env : Nat → AttemptOutcome) (cache : Option Buffer) : FetchResult :=
  fetchLoop env 3 1 5 cache []

/-- Number of download attempts recorded in a trace. -/
def attemptsOf (evts : List FetchEvent) : Nat :=
  (evts.filter (fun e => match e with | .attempt _ => true | _ => false)).length

/-- The sequence of inter-attempt delays (in seconds) recorded in a trace. -/
def delaysOf (evts : List FetchEvent) : List Nat :=
  evts.filterMap (fun e => match e with | .delaySec s => some s | _ => none)

/-- The doubling delay schedule: `k` delays starting at `d` seconds. -/
def geomList (d : Nat) : Nat → List Nat
  | 0 => []
  | k + 1 => d :: geomList (d * 2) k

/-! ### Staleness policy (`src/modules/iptv/utils.ts`) -/

/-- The age threshold `Math.max(config.REFRESH_IPTV * 60 * 1000 - 3 * 60 * 1000, 0)`
from `isOlderThanSetRefreshTime`. -/
def refreshTimeMs (refreshIPTV : Int) : Int :=
  max (refreshIPTV * 60 * 1000 - 3 * 60 * 1000) 0

/-- `isOlderThanSetRefreshTime(dateString)`: the record timestamp `dateMs`
(epoch ms of the parsed date) is older than the clamped refresh interval.
`nowMs` models `Date.now()`. -/
def isOlderThanSetRefreshTime (dateMs nowMs refreshIPTV : Int) : Bool :=
  nowMs - dateMs > refreshTimeMs refreshIPTV

/-- `isProgrammeDataStale()`: stale when there are no programme records, when
`programmes[0].created_at` is missing or older than the refresh interval, or
when no programme's `stop_timestamp` lies at or after `Math.floor(Date.now() / 1000)`. -/
def isProgrammeDataStale (programmes : List ProgrammeEntry)
    (nowMs refreshIPTV : Int) : Bool :=
  match programmes with
  | [] => true
  | p :: rest =>
    match p.created_at with
    | none => true
    | some t =>
      if isOlderThanSetRefreshTime t nowMs refreshIPTV then true
      else
        let nowSec := Int.fdiv nowMs 1000
        if (p :: rest).any
            (fun q => match q.stop_timestamp with
              | some ts => ts ≥ nowSec
              | none => false) then false
        else true

/-! ### Streaming session manager (`src/modules/streaming/index.ts`)

The module-level mutable state (`currentChannelEntry`, `abortController`,
`streamSpectatorMonitor`, `streamAloneTime`, the logged-in streamer client and
its voice connection) is modelled as an explicit state record, and the
operations as state transformers that additionally emit a trace of the
externally observable events they perform. -/

/-- Externally observable events of the streaming module. -/
inductive StreamEvent where
  | abortSignaled
  | monitorCleared
  | monitorStarted
  | pipelineStarted (c : ChannelEntry)
  | voiceLeft
  deriving Repr, DecidableEq

/-- Module-level state of the streaming module. -/
structure StreamState where
  clientReady : Bool
  currentChannelEntry : Option ChannelEntry
  monitorActive : Bool
  streamAloneTime : Int
  voiceConnected : Bool
  deriving Repr, DecidableEq

/-- `stopStreaming()`: a no-op when the client is not logged in; otherwise
aborts the active pipeline, clears the spectator monitor, resets the idle
accumulator and clears `currentChannelEntry`. -/
def stopStreaming (s : StreamState) : StreamState × List StreamEvent :=
  if ¬ s.clientReady then (s, [])
  else
    ({ s with currentChannelEntry := none, monitorActive := false,
              streamAloneTime := 0 },
     [.abortSignaled] ++ (if s.monitorActive then [.monitorCleared] else []))

/-- `leaveVoiceChannel()`: a no-op when the client is not logged in; otherwise
stops any current stream and then disconnects from the voice channel. -/
def leaveVoiceChannel (s : StreamState) : StreamState × List StreamEvent :=
  if ¬ s.clientReady then (s, [])
  else
    let (s1, e1) :=
      if s.currentChannelEntry.isSome then stopStreaming s else (s, [])
    ({ s1 with voiceConnected := false }, e1 ++ [.voiceLeft])

/-- `startSpectatorMonitoring()` (setup part): resets the idle accumulator,
clears any previous monitor interval and installs a new one. -/
def startSpectatorMonitoring (s : StreamState) : StreamState × List StreamEvent :=
  ({ s with streamAloneTime := 0, monitorActive := true },
   (if s.monitorActive then [.monitorCleared] else []) ++ [.monitorStarted])

/-- `startStreaming(channelEntry)`: a no-op when the client is not logged in;
otherwise first runs `stopStreaming()` to completion, then prepares the ffmpeg
pipeline for the requested channel, records it as the current channel, starts
spectator monitoring and hands the pipeline to `playStream`. -/
def startStreaming (c : ChannelEntry) (s : StreamState) :
    StreamState × List StreamEvent :=
  if ¬ s.clientReady then (s, [])
  else
    let (s1, e1) := stopStreaming s
    let s2 := { s1 with currentChannelEntry := some c }
    let (s3, e3) := startSpectatorMonitoring s2
    (s3, e1 ++ [.pipelineStarted c] ++ e3)

/-! ### Spectator monitor (`startSpectatorMonitoring`, interval callback) -/

/-- A member of the observed voice channel. -/
structure VoiceMember where
  isBot : Bool
  isStreamer : Bool
  deriving Repr, DecidableEq

/-- What one 10-second poll observes: no active voice connection, an invalid
channel, or the channel's member list. -/
inductive PollObs where
  | noConnection
  | invalidChannel
  | members (l : List VoiceMember)
  deriving Repr, DecidableEq

/-- The occupancy the interval callback computes:
`channel.members.filter(member => !member.user.bot).size - 1`. -/
def codeOccupancy (l : List VoiceMember) : Int :=
  ((l.filter (fun m => !m.isBot)).length : Int) - 1

/-- Occupancy as worded by the specification: the number of members that are
neither bot accounts nor the streaming account itself.  Stated only for
comparison with `codeOccupancy`. -/
def specOccupancy (l : List VoiceMember) : Int :=
  ((l.filter (fun m => !m.isBot ∧ !m.isStreamer)).length : Int)

/-- One tick of the spectator-monitor interval.  `timeoutMin` is
`config.DEFAULT_STREAM_TIMEOUT` (minutes, default 10).  When the computed
occupancy is `0` the idle accumulator grows by 10 seconds, and on reaching
`timeoutMin * 60` seconds the callback runs `stopStreaming()` followed by
`leaveVoiceChannel()`; any other occupancy resets the accumulator.  Returns
the new state, whether the auto-stop fired, and the emitted events. -/
def monitorTick (timeoutMin : Int) (obs : PollObs) (s : StreamState) :
    StreamState × Bool × List StreamEvent :=
  match obs with
  | .noConnection => (s, false, [])
  | .invalidChannel => (s, false, [])
  | .members l =>
    if codeOccupancy l = 0 then
      let t := s.streamAloneTime + 10
      if t ≥ timeoutMin * 60 then
        let s1 := { s with streamAloneTime := t }
        let (s2, e2) := stopStreaming s1
        let (s3, e3) := leaveVoiceChannel s2
        (s3, true, e2 ++ e3)
      else ({ s with streamAloneTime := t }, false, [])
    else ({ s with streamAloneTime := 0 }, false, [])

/-- A run of the monitor over a list of observations: a tick only happens
while the interval is installed (`monitorActive`); the second component counts
how many ticks fired the auto-stop. -/
def monitorRun (timeoutMin : Int) : List PollObs → StreamState → StreamState × Nat
  | [], s => (s, 0)
  | obs :: rest, s =>
    if s.monitorActive then
      let (s1, fired, _) := monitorTick timeoutMin obs s
      let (s2, n) := monitorRun timeoutMin rest s1
      (s2, (if fired then 1 else 0) + n)
    else monitorRun timeoutMin rest s

/-! ### Playlist parser (`src/modules/iptv/parsers/playlist-parser.ts`)

The parser is regex-driven.  The fixed patterns it uses are embedded as token
lists interpreted by a backtracking matcher with JavaScript regex semantics:
`lit` is a literal, `ws` is `\s*` (greedy), `dotsGreedy` is `.*` (greedy,
not matching line terminators), `grpLazy` is a capture group `(.*?)` (lazy).
An unanchored match tries start offsets left to right. -/

/-- Tokens of the embedded regular expressions. -/
inductive Tok where
  | lit (s : JsString)
  | ws
  | dotsGreedy
  | grpLazy
  deriving Repr

/-- Characters matched by `.` (anything but a line terminator). -/
def isDotChar (c : Char) : Bool :=
  ¬ c = '\n' ∧ ¬ c = '\r'

/-- Backtracking matcher: match the token list against a string (the match may
end before the string does), returning the captured groups in order. -/
def matchToks : List Tok → JsString → Option (List JsString)
  | [], _ => some []
  | .lit p :: ts, cs =>
      if startsWithJs p cs then matchToks ts (cs.drop p.length) else none
  | .ws :: ts, cs =>
      let m := (cs.takeWhile isJsWs).length
      (List.range (m + 1)).reverse.findSome? (fun k => matchToks ts (cs.drop k))
  | .dotsGreedy :: ts, cs =>
      let m := (cs.takeWhile isDotChar).length
      (List.range (m + 1)).reverse.findSome? (fun k => matchToks ts (cs.drop k))
  | .grpLazy :: ts, cs =>
      let m := (cs.takeWhile isDotChar).length
      (List.range (m + 1)).findSome?
        (fun k => (matchToks ts (cs.drop k)).map (fun gs => cs.take k :: gs))

/-- Unanchored regex match (`String.prototype.match`): try start offsets from
the left, first full match wins. -/
def jsMatch (toks : List Tok) (cs : JsString) : Option (List JsString) :=
  (List.range (cs.length + 1)).findSome? (fun o => matchToks toks (cs.drop o))

/-- The `ORIGINAL_PATTERN` regex of `parseOriginalFormat`:
`#EXTINF:.*\s*channelID="(.*?)"\s*tvg-chno="(.*?)"\s*tvg-name="(.*?)"\s*tvg-id="(.*?)"\s*tvg-logo="(.*?)"\s*group-title="(.*?)"`. -/
def origToks : List Tok :=
  [.lit ("#EXTINF:".data), .dotsGreedy, .ws,
   .lit ("channelID=\"".data), .grpLazy, .lit ("\"".data), .ws,
   .lit ("tvg-chno=\"".data), .grpLazy, .lit ("\"".data), .ws,
   .lit ("tvg-name=\"".data), .grpLazy, .lit ("\"".data), .ws,
   .lit ("tvg-id=\"".data), .grpLazy, .lit ("\"".data), .ws,
   .lit ("tvg-logo=\"".data), .grpLazy, .lit ("\"".data), .ws,
   .lit ("group-title=\"".data), .grpLazy, .lit ("\"".data)]

/-- `(s || '').split(': |')[0]`: the prefix of `s` before the first occurrence
of the separator (the whole string when the separator does not occur). -/
def takeBeforeSubstr (sep : JsString) : JsString → JsString
  | [] => []
  | c :: r =>
      if startsWithJs sep (c :: r) then [] else c :: takeBeforeSubstr sep r

/-- `parseOriginalFormat(line)`: strict fixed-order attribute pattern; on a
match the six captured groups populate the record (the `tvg_chno` capture is
unused, as in the source). -/
def parseOriginalFormat (line : JsString) : Option ChannelEntry :=
  match jsMatch origToks line with
  | some [xuiId, _tvgChno, tvgName, tvgId, tvgLogo, groupTitle] =>
      some { xui_id := parseIntJS (if xuiId = [] then ['0'] else xuiId)
             tvg_id := tvgId
             tvg_name := tvgName
             tvg_logo := tvgLogo
             group_title := groupTitle
             url := []
             created_at := none
             country := takeBeforeSubstr (": |".data) groupTitle }
  | _ => none

/-- Try to match `attr-pat("([^"]+)")` at the head of `cs`: the literal prefix
`pat` (e.g. `tvg-id="`), then at least one non-quote character, then `"`. -/
def matchAttrValAt (pat : JsString) (cs : JsString) : Option JsString :=
  if startsWithJs pat cs then
    let rest := cs.drop pat.length
    let cap := rest.takeWhile (fun c => ¬ c = '"')
    if cap ≠ [] ∧ (rest.drop cap.length).head? = some '"' then some cap else none
  else none

/-- First match of `/pat([^"]+)"/` in the string (JS regex scan: leftmost
start position wins). -/
def findAttrVal (pat : JsString) : JsString → Option JsString
  | [] => none
  | c :: r => (matchAttrValAt pat (c :: r)).orElse (fun _ => findAttrVal pat r)

/-- The text after the last `','` of the line (`lastIndexOf` + `substring`),
`none` when the line has no comma. -/
def afterLastComma (s : JsString) : Option JsString :=
  if ',' ∈ s then some ((s.reverse.takeWhile (fun c => ¬ c = ',')).reverse)
  else none

/-- The acceptance test `if (tvg_id || tvg_name) { return {...}; } return null`
of `parseAlternativeFormat`, on the already-built record. -/
def acceptIfIdOrName (e : ChannelEntry) : Option ChannelEntry :=
  if e.tvg_id ≠ [] ∨ e.tvg_name ≠ [] then some e else none

/-- The acceptance test `if (tvgName) { return {...}; } return null` of
`parseFlexibleFormat`, on the already-built record. -/
def acceptIfName (e : ChannelEntry) : Option ChannelEntry :=
  if e.tvg_name ≠ [] then some e else none

/-- `parseAlternativeFormat(line)`: order-independent attribute lookups with
the channel name falling back to the text after the last comma, accepted only
when an id or a name was found. -/
def parseAlternativeFormat (line : JsString) : Option ChannelEntry :=
  if ¬ startsWithJs ("#EXTINF:".data) line then none
  else
    let tvgIdM := findAttrVal ("tvg-id=\"".data) line
    let tvgNameM := findAttrVal ("tvg-name=\"".data) line
    let tvgLogoM := findAttrVal ("tvg-logo=\"".data) line
    let groupTitleM := findAttrVal ("group-title=\"".data) line
    let channelName := match afterLastComma line with
      | some t => trimJs t
      | none => []
    let tvgId := tvgIdM.getD []
    let tvgName := match tvgNameM with
      | some v => v
      | none => if channelName ≠ [] then channelName else tvgId
    let groupTitle := groupTitleM.getD []
    let entry : ChannelEntry :=
      { xui_id := some 0
        tvg_id := tvgId
        tvg_name := tvgName
        tvg_logo := tvgLogoM.getD []
        group_title := groupTitle
        url := []
        created_at := none
        country := takeBeforeSubstr (": |".data) groupTitle }
    acceptIfIdOrName entry

/-- Does `/\s+\([^)]+\)\s*$/` match starting exactly at the head of `cs`
(reaching the end of the string)? -/
def qualSuffixAt (cs : JsString) : Bool :=
  let w := cs.takeWhile isJsWs
  if w = [] then false
  else
    match cs.drop w.length with
    | '(' :: r =>
        let inner := r.takeWhile (fun c => ¬ c = ')')
        if inner = [] then false
        else
          match r.drop inner.length with
          | ')' :: tail => tail.all isJsWs
          | _ => false
    | _ => false

/-- `channelName.replace(/\s+\([^)]+\)\s*$/, '')`: remove a trailing
parenthesized quality indicator (leftmost match position wins). -/
def stripQualSuffix (s : JsString) : JsString :=
  match (List.range s.length).find? (fun i => qualSuffixAt (s.drop i)) with
  | some i => s.take i
  | none => s

/-- `parseFlexibleFormat(line)`: maximally lenient extraction; the channel
name comes from the trailing text with a quality suffix stripped, falling
back to the id, and a record is produced only when that name is non-empty. -/
def parseFlexibleFormat (line : JsString) : Option ChannelEntry :=
  if ¬ startsWithJs ("#EXTINF:".data) line then none
  else
    let tvgIdM := findAttrVal ("tvg-id=\"".data) line
    let tvgLogoM := findAttrVal ("tvg-logo=\"".data) line
    let groupTitleM := findAttrVal ("group-title=\"".data) line
    let channelName := match afterLastComma line with
      | some t => stripQualSuffix (trimJs t)
      | none => []
    let tvgId := tvgIdM.getD []
    let tvgName := if channelName ≠ [] then channelName else tvgId
    let groupTitle := groupTitleM.getD []
    let entry : ChannelEntry :=
      { xui_id := some 0
        tvg_id := tvgId
        tvg_name := tvgName
        tvg_logo := tvgLogoM.getD []
        group_title := groupTitle
        url := []
        created_at := none
        country := if groupTitle ≠ [] then takeBeforeSubstr (": |".data) groupTitle else [] }
    acceptIfName entry

/-- `fromPlaylistLine(line)`: the three strategies in strict order, first
success wins (`||` chaining on nullable results). -/
def fromPlaylistLine (line : JsString) : Option ChannelEntry :=
  (parseOriginalFormat line).orElse
    (fun _ => (parseAlternativeFormat line).orElse
      (fun _ => parseFlexibleFormat line))

/-! ### Channel synchronization and refresh
(`src/modules/iptv/index.ts`, `src/modules/commands/refresh.ts`) -/

/-- `content.split(sep)` for a single separator character. -/
def splitOnChar (sep : Char) : JsString → List JsString
  | [] => [[]]
  | c :: r =>
    match splitOnChar sep r with
    | [] => [[]]
    | p :: ps => if c = sep then [] :: p :: ps else (c :: p) :: ps

/-- The line-pairing loop of `syncPlaylistChannels`: an `#EXTINF:` line opens
a pending record via `fromPlaylistLine`; the next non-comment, non-blank line
becomes its stream URL (with `created_at` stamped) and completes it. -/
def collectPlaylistChannels (nowIso : JsString) :
    List JsString → Option ChannelEntry → List ChannelEntry
  | [], _ => []
  | line :: rest, cur =>
    if startsWithJs ("#EXTINF:".data) line then
      collectPlaylistChannels nowIso rest (fromPlaylistLine line)
    else
      match cur with
      | some c =>
        if ¬ startsWithJs ("#".data) line ∧ trimJs line ≠ [] then
          { c with url := trimJs line, created_at := some nowIso } ::
            collectPlaylistChannels nowIso rest none
        else collectPlaylistChannels nowIso rest (some c)
      | none => collectPlaylistChannels nowIso rest none

/-- A JavaScript `Map` over channel ids, as an insertion-ordered association
list: `set` on an existing key updates the value in place, otherwise appends. -/
abbrev ChannelMap := List (JsString × ChannelEntry)

/-- `Map.prototype.get`. -/
def mapLookup : ChannelMap → JsString → Option ChannelEntry
  | [], _ => none
  | (k', v) :: r, k => if k' = k then some v else mapLookup r k

/-- `Map.prototype.set`. -/
def mapSet : ChannelMap → JsString → ChannelEntry → ChannelMap
  | [], k, v => [(k, v)]
  | (k', v') :: r, k, v =>
      if k' = k then (k', v) :: r else (k', v') :: mapSet r k v

/-- `Array.from(map.values())`. -/
def mapValues (m : ChannelMap) : List ChannelEntry :=
  m.map Prod.snd

/-- `new Map(existingChannels.map(ch => [ch.tvg_id, ch]))`. -/
def mapFromList (l : List ChannelEntry) : ChannelMap :=
  l.foldl (fun m ch => mapSet m ch.tvg_id ch) []

/-- The insertion key for an unmatched playlist record:
`playlistCh.tvg_id || ` followed by the positional fallback
(`playlist_` and the record's index in the playlist array). -/
def playlistKey (p : ChannelEntry) (i : Nat) : JsString :=
  if p.tvg_id ≠ [] then p.tvg_id else "playlist_".data ++ (Nat.repr i).data

/-- One iteration of the merge loop: a playlist record with a non-empty id
matching an existing record overwrites only its `url` (always) and its
`group_title`/`tvg_logo` (when non-empty on the playlist side); otherwise the
record is inserted under the playlist id or the positional fallback key. -/
def mergeStep (m : ChannelMap) (i : Nat) (p : ChannelEntry) : ChannelMap :=
  match (if p.tvg_id ≠ [] then mapLookup m p.tvg_id else none) with
  | some ex =>
      mapSet m p.tvg_id
        { ex with
            url := p.url
            group_title := if p.group_title ≠ [] then p.group_title else ex.group_title
            tvg_logo := if p.tvg_logo ≠ [] then p.tvg_logo else ex.tvg_logo }
  | none => mapSet m (playlistKey p i) p

/-- The merge loop over playlist records (carrying the array index used for
the positional fallback key). -/
def mergeLoop : Nat → List ChannelEntry → ChannelMap → ChannelMap
  | _, [], m => m
  | i, p :: r, m => mergeLoop (i + 1) r (mergeStep m i p)

/-- The playlist-into-guide merge of `syncPlaylistChannels` (lines 189–214). -/
def mergePlaylistChannels (existing playlist : List ChannelEntry) : ChannelMap :=
  mergeLoop 0 playlist (mapFromList existing)

/-- Persisted record collections (`src/modules/database.ts`): two full-replace
record lists. -/
structure DB where
  channels : List ChannelEntry
  programmes : List ProgrammeEntry
  deriving Repr, DecidableEq

/-- Parsed XMLTV content (`extractXMLTVData` result). -/
structure ParsedXMLTV where
  channels : List ChannelEntry
  programmes : List ProgrammeEntry
  deriving Repr, DecidableEq

/-- Environment of a refresh run: configuration flags and the results of the
external fetch/parse steps (network, cache and XML parsing collapsed into
the values they eventually produce; `none` = fetch failed). -/
structure RefreshEnv where
  xmltvConfigured : Bool
  playlistConfigured : Bool
  xmltv : Option ParsedXMLTV
  playlistContent : Option JsString
  nowIso : JsString
  staleData : Bool
  deriving Repr

/-- `populateDatabaseFromXMLTV(force)`: skipped when data is fresh and not
forced; aborts leaving the database untouched when the fetch fails; replaces
the channel collection when the parse produced channels and the programme
collection when it produced programmes. -/
def populateDatabaseFromXMLTV (force : Bool) (env : RefreshEnv) (db : DB) : DB :=
  if ¬ env.staleData ∧ ¬ force then db
  else
    match env.xmltv with
    | none => db
    | some parsed =>
      let db1 := if parsed.channels ≠ [] then { db with channels := parsed.channels } else db
      if parsed.programmes ≠ [] then { db1 with programmes := parsed.programmes } else db1

/-- `syncPlaylistChannels(force)`: returns with the database untouched when no
playlist content could be obtained; otherwise parses the playlist, merges it
into the existing channel set and, when the merged set is non-empty, replaces
the stored channel collection with it.  Programme records are never touched. -/
def syncPlaylistChannels (env : RefreshEnv) (db : DB) : DB :=
  match env.playlistContent with
  | none => db
  | some content =>
    let lines := splitOnChar '\n' content
    let playlistChannels := collectPlaylistChannels env.nowIso lines none
    let merged := mergePlaylistChannels db.channels playlistChannels
    if mapValues merged ≠ [] then { db with channels := mapValues merged } else db

/-- `downloadCacheAndFillDb(force)`: XMLTV population first when configured,
then playlist synchronization when configured (cache clearing and refresh
scheduling do not touch the record collections). -/
def downloadCacheAndFillDb (force : Bool) (env : RefreshEnv) (db : DB) : DB :=
  if env.xmltvConfigured then
    let db1 := populateDatabaseFromXMLTV force env db
    if env.playlistConfigured then syncPlaylistChannels env db1 else db1
  else if env.playlistConfigured then syncPlaylistChannels env db
  else db

/-- Structured result of a user-facing command. -/
structure CommandResult where
  success : Bool
  message : JsString
  deriving Repr, DecidableEq

/-- `executeRefresh(type)` (`src/modules/commands/refresh.ts`): dispatches to
the forced variants of the three refresh paths. -/
def executeRefresh (type : JsString) (env : RefreshEnv) (db : DB) : DB × CommandResult :=
  if type = "all".data then
    (downloadCacheAndFillDb true env db,
     { success := true, message := "Successfully refreshed all data.".data })
  else if type = "channels".data then
    (syncPlaylistChannels env db,
     { success := true, message := "Successfully refreshed channels data.".data })
  else if type = "programme".data then
    (populateDatabaseFromXMLTV true env db,
     { success := true, message := "Successfully refreshed programme data.".data })
  else
    (db, { success := false, message := "Unknown refresh type: ".data ++ type })

/-! ### Guide date parser (`src/modules/iptv/utils.ts`, `parseDate`) -/

/-- Days from 1970-01-01 to year `y`, month `m` (1–12), day `d` in the
proleptic Gregorian calendar (days-from-civil algorithm; an out-of-range `d`
simply offsets the result, matching JavaScript date-value arithmetic). -/
def daysFromCivil (y m d : Int) : Int :=
  let y1 := if m ≤ 2 then y - 1 else y
  let era := Int.fdiv y1 400
  let yoe := y1 - era * 400
  let mp := Int.emod (m + 9) 12
  let doy := Int.fdiv (153 * mp + 2) 5 + d - 1
  let doe := yoe * 365 + Int.fdiv yoe 4 - Int.fdiv yoe 100 + doy
  era * 146097 + doe - 719468

/-- `Date.UTC(year, month0, day, h, min, s)` in milliseconds: months overflow
into years, years 0–99 are interpreted as 1900–1999, and out-of-range
day/time components roll over arithmetically. -/
def dateUTCms (year month0 day h min s : Int) : Int :=
  let year' := if 0 ≤ year ∧ year ≤ 99 then year + 1900 else year
  let ym := year' * 12 + month0
  let y := Int.fdiv ym 12
  let m := Int.emod ym 12
  (daysFromCivil y (m + 1) 1 + (day - 1)) * 86400000
    + h * 3600000 + min * 60000 + s * 1000

/-- The UTC instant (epoch milliseconds) denoted by a civil date-time, used as
the specification-side meaning of `YYYYMMDDHHMMSS`. -/
def utcMillis (y mo d h mi s : Int) : Int :=
  daysFromCivil y mo d * 86400000 + h * 3600000 + mi * 60000 + s * 1000

/-- Days in a month of the proleptic Gregorian calendar. -/
def daysInMonth (y mo : Int) : Int :=
  if mo = 2 then
    if Int.emod y 4 = 0 ∧ (Int.emod y 100 ≠ 0 ∨ Int.emod y 400 = 0) then 29 else 28
  else if mo = 4 ∨ mo = 6 ∨ mo = 9 ∨ mo = 11 then 30
  else 31

/-- Result of `parseDate`: the function throws on a short timestamp, and
otherwise builds a `Date` that is invalid when any parsed component is `NaN`. -/
inductive JsDateResult where
  | thrown
  | invalid
  | ok (ms : Int)
  deriving Repr, DecidableEq

/-- `parseDate(dateString)`: split on a space into timestamp and optional
offset; throw unless the timestamp has at least 14 characters; slice out the
six date/time components with `parseInt`; apply the `±HHMM` offset (a leading
`+` means ahead of UTC, anything else behind) by subtracting it from the
`Date.UTC` value. -/
def parseDate (dateString : JsString) : JsDateResult :=
  let parts := splitOnChar ' ' dateString
  let timestamp := (parts.head?).getD []
  if timestamp = [] ∨ timestamp.length < 14 then .thrown
  else
    let year? := parseIntJS (timestamp.take 4)
    let month? := (parseIntJS ((timestamp.drop 4).take 2)).map (· - 1)
    let day? := parseIntJS ((timestamp.drop 6).take 2)
    let hour? := parseIntJS ((timestamp.drop 8).take 2)
    let minute? := parseIntJS ((timestamp.drop 10).take 2)
    let second? := parseIntJS ((timestamp.drop 12).take 2)
    let offset? : Option Int :=
      match parts.drop 1 with
      | [] => some 0
      | op :: _ =>
        if op = [] then some 0
        else
          let sign : Int := if op.head? = some '+' then 1 else -1
          let ohStr := (op.drop 1).take 2
          let omStr := (op.drop 3).take 2
          let oh? := parseIntJS (if ohStr = [] then ['0'] else ohStr)
          let om? := parseIntJS (if omStr = [] then ['0'] else omStr)
          match oh?, om? with
          | some oh, some om => some (sign * (oh * 60 + om) * 60000)
          | _, _ => none
    match year?, month?, day?, hour?, minute?, second?, offset? with
    | some y, some mo0, some d, some h, some mi, some s, some off =>
        .ok (dateUTCms y mo0 d h mi s - off)
    | _, _, _, _, _, _, _ => .invalid

/-- Decimal digit character of a digit value. -/
def digitChar (d : Nat) : Char :=
  Char.ofNat (48 + d)

/-- Decimal digits of `n`, least significant first, with explicit fuel so the
function evaluates by reduction (agrees with `Nat.digits 10` for fuel ≥ n). -/
def natDigitsAux : Nat → Nat → List Nat
  | _, 0 => []
  | 0, _ => []
  | fuel + 1, n => n % 10 :: natDigitsAux fuel (n / 10)

/-- Decimal rendering of a natural number (most significant digit first). -/
def renderNat (n : Nat) : JsString :=
  if n = 0 then ['0'] else ((natDigitsAux n n).map digitChar).reverse

/-- Zero-padded decimal rendering to width `w`. -/
def padNat (w : Nat) (n : Nat) : JsString :=
  List.replicate (w - (renderNat n).length) '0' ++ renderNat n

/-- The `YYYYMMDDHHMMSS` timestamp of civil components. -/
def renderTimestamp (y mo d h mi s : Nat) : JsString :=
  padNat 4 y ++ padNat 2 mo ++ padNat 2 d ++ padNat 2 h ++ padNat 2 mi ++ padNat 2 s

/-- The ` ±HHMM` timezone suffix. -/
def renderOffset (sign : Char) (oh om : Nat) : JsString :=
  [' ', sign] ++ padNat 2 oh ++ padNat 2 om

/-! ## Theorems -/

/-! ### C1 — single active session, stop before start -/

/-- C1: starting a stream first runs the stop operation to completion before
building the new pipeline, so after two successive `startStreaming` calls with
different channels exactly one session is active (the second channel), and a
pipeline-teardown event (`abortController.abort()`) lies strictly between the
two pipeline constructions. -/
theorem c1_start_twice_single_session (s : StreamState) (c1 c2 : ChannelEntry)
    (h : s.clientReady = true) :
    ((startStreaming c2 ((startStreaming c1 s).1)).1).currentChannelEntry = some c2 ∧
    ∃ l1 l2 l3,
      (startStreaming c1 s).2 ++ (startStreaming c2 ((startStreaming c1 s).1)).2 =
        l1 ++ [StreamEvent.pipelineStarted c1] ++ l2 ++ [StreamEvent.pipelineStarted c2] ++ l3 ∧
      StreamEvent.abortSignaled ∈ l2 := by
  obtain ⟨ready, cur, mon, alone, conn⟩ := s
  simp only at h
  subst h
  constructor
  · simp [startStreaming, stopStreaming, startSpectatorMonitoring]
  · by_cases hm : mon
    · subst hm
      refine ⟨[.abortSignaled, .monitorCleared],
              [.monitorStarted, .abortSignaled, .monitorCleared],
              [.monitorStarted], ?_, by simp⟩
      simp [startStreaming, stopStreaming, startSpectatorMonitoring]
    · simp only [Bool.not_eq_true] at hm
      subst hm
      refine ⟨[.abortSignaled],
              [.monitorStarted, .abortSignaled, .monitorCleared],
              [.monitorStarted], ?_, by simp⟩
      simp [startStreaming, stopStreaming, startSpectatorMonitoring]

/-- Witness for C1 at a concrete ready state and two concrete channels. -/
theorem c1_witness :
    ((startStreaming ⟨some 2, ['b'], ['B'], [], [], ['v'], none, []⟩
        ((startStreaming ⟨some 1, ['a'], ['A'], [], [], ['u'], none, []⟩
          ⟨true, none, false, 0, false⟩).1)).1).currentChannelEntry =
      some ⟨some 2, ['b'], ['B'], [], [], ['v'], none, []⟩ :=
  (c1_start_twice_single_session ⟨true, none, false, 0, false⟩
    ⟨some 1, ['a'], ['A'], [], [], ['u'], none, []⟩
    ⟨some 2, ['b'], ['B'], [], [], ['v'], none, []⟩ rfl).1

/-! ### C2 — fetch retry policy -/

/-- Attempt count grows by at most the number of remaining loop iterations. -/
theorem fetchLoop_attempts (env : Nat → AttemptOutcome) (rem : Nat) :
    ∀ (attempt delay : Nat) (cache : Option Buffer) (events : List FetchEvent),
      attemptsOf (fetchLoop env rem attempt delay cache events).events ≤
        attemptsOf events + rem := by
  induction rem with
  | zero => intro attempt delay cache events; simp [fetchLoop]
  | succ rem ih =>
    intro attempt delay cache events
    cases e : env attempt with
    | success c =>
      simp [fetchLoop, e, attemptsOf, List.filter_append]
    | empty =>
      have h := ih (attempt + 1) delay cache (events ++ [.attempt attempt])
      simp only [fetchLoop, e] at h ⊢
      simp [attemptsOf, List.filter_append] at h ⊢
      omega
    | error =>
      by_cases hr : rem = 0
      · subst hr
        simp [fetchLoop, e, attemptsOf, List.filter_append]
      · have h := ih (attempt + 1) (delay * 2) cache
          (events ++ [.attempt attempt, .delaySec delay])
        simp only [fetchLoop, e, if_pos hr] at h ⊢
        simp [attemptsOf, List.filter_append] at h ⊢
        omega

/-- The delays appended by the loop follow the doubling schedule, with strictly
fewer delays than remaining iterations. -/
theorem fetchLoop_delays (env : Nat → AttemptOutcome) (rem : Nat) :
    ∀ (attempt delay : Nat) (cache : Option Buffer) (events : List FetchEvent),
      ∃ k, k ≤ rem - 1 ∧
        delaysOf (fetchLoop env rem attempt delay cache events).events =
          delaysOf events ++ geomList delay k := by
  induction rem with
  | zero =>
    intro attempt delay cache events
    exact ⟨0, by omega, by simp [fetchLoop, geomList]⟩
  | succ rem ih =>
    intro attempt delay cache events
    cases e : env attempt with
    | success c =>
      exact ⟨0, by omega, by simp [fetchLoop, e, geomList, delaysOf, List.filterMap_append]⟩
    | empty =>
      obtain ⟨k, hk, h⟩ := ih (attempt + 1) delay cache (events ++ [.attempt attempt])
      refine ⟨k, by omega, ?_⟩
      simp only [fetchLoop, e]
      rw [h]
      simp [delaysOf, List.filterMap_append]
    | error =>
      by_cases hr : rem = 0
      · subst hr
        exact ⟨0, by omega, by simp [fetchLoop, e, geomList, delaysOf, List.filterMap_append]⟩
      · obtain ⟨k, hk, h⟩ := ih (attempt + 1) (delay * 2) cache
          (events ++ [.attempt attempt, .delaySec delay])
        refine ⟨k + 1, by omega, ?_⟩
        simp only [fetchLoop, e, if_pos hr]
        rw [h]
        simp [delaysOf, List.filterMap_append, geomList]

/-- When no attempt succeeds, the call returns the cached blob exactly when
the third attempt threw an error, and `null` otherwise (in particular after a
final falsy-`data` response the cache is not consulted). -/
theorem fetch_exhaust (env : Nat → AttemptOutcome) (cache : Option Buffer)
    (h : ∀ i c, 1 ≤ i → i ≤ 3 → env i ≠ .success c) :
    (fetchWithRetry env cache).result = (if env 3 = .error then cache else none) := by
  cases e1 : env 1 with
  | success c1 => exact absurd e1 (h 1 c1 (by omega) (by omega))
  | empty =>
    cases e2 : env 2 with
    | success c2 => exact absurd e2 (h 2 c2 (by omega) (by omega))
    | empty =>
      cases e3 : env 3 with
      | success c3 => exact absurd e3 (h 3 c3 (by omega) (by omega))
      | empty => simp [fetchWithRetry, fetchLoop, e1, e2, e3]
      | error => simp [fetchWithRetry, fetchLoop, e1, e2, e3]
    | error =>
      cases e3 : env 3 with
      | success c3 => exact absurd e3 (h 3 c3 (by omega) (by omega))
      | empty => simp [fetchWithRetry, fetchLoop, e1, e2, e3]
      | error => simp [fetchWithRetry, fetchLoop, e1, e2, e3]
  | error =>
    cases e2 : env 2 with
    | success c2 => exact absurd e2 (h 2 c2 (by omega) (by omega))
    | empty =>
      cases e3 : env 3 with
      | success c3 => exact absurd e3 (h 3 c3 (by omega) (by omega))
      | empty => simp [fetchWithRetry, fetchLoop, e1, e2, e3]
      | error => simp [fetchWithRetry, fetchLoop, e1, e2, e3]
    | error =>
      cases e3 : env 3 with
      | success c3 => exact absurd e3 (h 3 c3 (by omega) (by omega))
      | empty => simp [fetchWithRetry, fetchLoop, e1, e2, e3]
      | error => simp [fetchWithRetry, fetchLoop, e1, e2, e3]

/-- The first successful attempt's content is returned, and is written to the
cache (a `cacheWrite` event, and the final cache state holds it). -/
theorem fetch_success (env : Nat → AttemptOutcome) (cache : Option Buffer)
    (i : Nat) (c : Buffer) (hi1 : 1 ≤ i) (hi3 : i ≤ 3) (hsucc : env i = .success c)
    (hfirst : ∀ j c', 1 ≤ j → j < i → env j ≠ .success c') :
    (fetchWithRetry env cache).result = some c ∧
    (fetchWithRetry env cache).cache = some c ∧
    FetchEvent.cacheWrite c ∈ (fetchWithRetry env cache).events := by
  interval_cases i
  · exact ⟨by simp [fetchWithRetry, fetchLoop, hsucc],
      by simp [fetchWithRetry, fetchLoop, hsucc],
      by simp [fetchWithRetry, fetchLoop, hsucc]⟩
  · cases e1 : env 1 with
    | success c1 => exact absurd e1 (hfirst 1 c1 (by omega) (by omega))
    | empty => exact ⟨by simp [fetchWithRetry, fetchLoop, e1, hsucc],
        by simp [fetchWithRetry, fetchLoop, e1, hsucc],
        by simp [fetchWithRetry, fetchLoop, e1, hsucc]⟩
    | error => exact ⟨by simp [fetchWithRetry, fetchLoop, e1, hsucc],
        by simp [fetchWithRetry, fetchLoop, e1, hsucc],
        by simp [fetchWithRetry, fetchLoop, e1, hsucc]⟩
  · cases e1 : env 1 with
    | success c1 => exact absurd e1 (hfirst 1 c1 (by omega) (by omega))
    | empty =>
      cases e2 : env 2 with
      | success c2 => exact absurd e2 (hfirst 2 c2 (by omega) (by omega))
      | empty => exact ⟨by simp [fetchWithRetry, fetchLoop, e1, e2, hsucc],
          by simp [fetchWithRetry, fetchLoop, e1, e2, hsucc],
          by simp [fetchWithRetry, fetchLoop, e1, e2, hsucc]⟩
      | error => exact ⟨by simp [fetchWithRetry, fetchLoop, e1, e2, hsucc],
          by simp [fetchWithRetry, fetchLoop, e1, e2, hsucc],
          by simp [fetchWithRetry, fetchLoop, e1, e2, hsucc]⟩
    | error =>
      cases e2 : env 2 with
      | success c2 => exact absurd e2 (hfirst 2 c2 (by omega) (by omega))
      | empty => exact ⟨by simp [fetchWithRetry, fetchLoop, e1, e2, hsucc],
          by simp [fetchWithRetry, fetchLoop, e1, e2, hsucc],
          by simp [fetchWithRetry, fetchLoop, e1, e2, hsucc]⟩
      | error => exact ⟨by simp [fetchWithRetry, fetchLoop, e1, e2, hsucc],
          by simp [fetchWithRetry, fetchLoop, e1, e2, hsucc],
          by simp [fetchWithRetry, fetchLoop, e1, e2, hsucc]⟩

/-- C2 counterexample to the claim as stated: when all three attempts return a
falsy `response.data` (the "Downloaded content was empty" branch), the
attempts are exhausted but the function returns `null` without falling back to
the existing cached blob. -/
theorem c2_counterexample :
    (fetchWithRetry (fun _ => AttemptOutcome.empty) (some ['x'])).result = none ∧
    attemptsOf (fetchWithRetry (fun _ => AttemptOutcome.empty) (some ['x'])).events = 3 := by
  constructor <;> rfl

/-- C2 (amended): at most 3 attempts occur; the inter-attempt delays form a
prefix of `[5, 10]` seconds; on exhausting all attempts the cached blob is
returned only when the final attempt threw an error (a final empty response
yields `null` even when a cached blob exists); and the first successful
attempt's content is written to the cache before being returned. -/
theorem c2_fetch_retry_amended (env : Nat → AttemptOutcome) (cache : Option Buffer) :
    attemptsOf (fetchWithRetry env cache).events ≤ 3 ∧
    delaysOf (fetchWithRetry env cache).events <+: [5, 10] ∧
    ((∀ i c, 1 ≤ i → i ≤ 3 → env i ≠ .success c) →
      (fetchWithRetry env cache).result = (if env 3 = .error then cache else none)) ∧
    (∀ i c, 1 ≤ i → i ≤ 3 → env i = .success c →
      (∀ j c', 1 ≤ j → j < i → env j ≠ .success c') →
      (fetchWithRetry env cache).result = some c ∧
      (fetchWithRetry env cache).cache = some c ∧
      FetchEvent.cacheWrite c ∈ (fetchWithRetry env cache).events) := by
  refine ⟨?_, ?_, fetch_exhaust env cache, fetch_success env cache⟩
  · have h := fetchLoop_attempts env 3 1 5 cache []
    simpa [fetchWithRetry, attemptsOf] using h
  · obtain ⟨k, hk, h⟩ := fetchLoop_delays env 3 1 5 cache []
    have h' : delaysOf (fetchWithRetry env cache).events = geomList 5 k := by
      simpa [fetchWithRetry, delaysOf] using h
    rw [h']
    interval_cases k
    · exact List.nil_prefix
    · exact ⟨[10], rfl⟩
    · exact ⟨[], by simp [geomList]⟩

/-- Witness for C2 at concrete environments: all-error attempts fall back to
the cache; a first-attempt success is returned and cached. -/
theorem c2_witness :
    attemptsOf (fetchWithRetry (fun _ => AttemptOutcome.error) (some ['y'])).events ≤ 3 ∧
    (fetchWithRetry (fun _ => AttemptOutcome.error) (some ['y'])).result = some ['y'] ∧
    (fetchWithRetry (fun _ => AttemptOutcome.success ['z']) none).cache = some ['z'] := by
  refine ⟨(c2_fetch_retry_amended (fun _ => AttemptOutcome.error) (some ['y'])).1, ?_, ?_⟩
  · have h := (c2_fetch_retry_amended (fun _ => AttemptOutcome.error) (some ['y'])).2.2.1
      (by intro i c _ _ hc; cases hc)
    simpa using h
  · exact ((c2_fetch_retry_amended (fun _ => AttemptOutcome.success ['z']) none).2.2.2
      1 ['z'] (by omega) (by omega) rfl (by intro j c' _ hj; omega)).2.1

/-! ### C5 — spectator monitor -/

/-- A run with no installed monitor interval never fires the auto-stop. -/
theorem monitorRun_inactive (tm : Int) (obsl : List PollObs) (s : StreamState)
    (h : s.monitorActive = false) : (monitorRun tm obsl s).2 = 0 := by
  induction obsl with
  | nil => simp [monitorRun]
  | cons o rest ih => simp [monitorRun, h, ih]

/-- A tick preserves the logged-in flag, and a tick that fires the auto-stop
leaves the monitor interval cleared (via `stopStreaming`). -/
theorem monitorTick_ready (tm : Int) (obs : PollObs) (s : StreamState)
    (h : s.clientReady = true) :
    ((monitorTick tm obs s).1).clientReady = true ∧
    ((monitorTick tm obs s).2.1 = true →
      ((monitorTick tm obs s).1).monitorActive = false) := by
  cases obs with
  | noConnection => simp [monitorTick]; exact h
  | invalidChannel => simp [monitorTick]; exact h
  | members l =>
    simp only [monitorTick]
    by_cases hocc : codeOccupancy l = 0
    · simp only [hocc, if_pos rfl]
      by_cases hth : s.streamAloneTime + 10 ≥ tm * 60
      · simp [hth, stopStreaming, leaveVoiceChannel, h]
      · simp [hth]; exact h
    · simp [hocc]; exact h

/-- Once the auto-stop has fired, the cleared interval stops all further
polling, so a run fires it at most once. -/
theorem monitorRun_le_one (tm : Int) (obsl : List PollObs) (s : StreamState)
    (h : s.clientReady = true) : (monitorRun tm obsl s).2 ≤ 1 := by
  induction obsl generalizing s with
  | nil => simp [monitorRun]
  | cons o rest ih =>
    simp only [monitorRun]
    split
    · show (if (monitorTick tm o s).2.1 then 1 else 0) +
        (monitorRun tm rest ((monitorTick tm o s).1)).2 ≤ 1
      have hp := monitorTick_ready tm o s h
      by_cases hf : (monitorTick tm o s).2.1 = true
      · have := monitorRun_inactive tm rest ((monitorTick tm o s).1) (hp.2 hf)
        simp [hf, this]
      · simp only [Bool.not_eq_true] at hf
        have := ih ((monitorTick tm o s).1) hp.1
        simp [hf]
        omega
    · exact ih s h

/-- C5 counterexample to the claim as stated: with exactly one non-bot member
present who is not the streaming account, the claim's occupancy (members
excluding bots and the streaming account) is `1`, so the claim requires the
poll to reset the idle accumulator — but the code computes
`nonBotCount - 1 = 0` and instead adds 10 seconds to the accumulator. -/
theorem c5_counterexample :
    specOccupancy [⟨false, false⟩] = 1 ∧
    ((monitorTick 10 (.members [⟨false, false⟩])
        ⟨true, some ⟨some 1, ['a'], ['A'], [], [], ['u'], none, []⟩, true, 0, true⟩).1).streamAloneTime
      = 10 := by
  constructor <;> rfl

/-- C5 (amended): with occupancy computed as the non-bot member count minus
one, a zero-occupancy poll below the threshold adds 10 seconds to the idle
accumulator, any non-zero occupancy resets it to zero, a poll reaching the
configured threshold (`DEFAULT_STREAM_TIMEOUT * 60` seconds, default 10
minutes) fires `stopStreaming()` followed by `leaveVoiceChannel()` (tearing
down the session, monitor and voice connection), and a run of the monitor
fires the auto-stop at most once. -/
theorem c5_spectator_amended :
    (∀ (tm : Int) (l : List VoiceMember) (s : StreamState),
      codeOccupancy l = 0 → s.streamAloneTime + 10 < tm * 60 →
      monitorTick tm (.members l) s =
        ({ s with streamAloneTime := s.streamAloneTime + 10 }, false, [])) ∧
    (∀ (tm : Int) (l : List VoiceMember) (s : StreamState),
      codeOccupancy l ≠ 0 →
      monitorTick tm (.members l) s = ({ s with streamAloneTime := 0 }, false, [])) ∧
    (∀ (tm : Int) (l : List VoiceMember) (s : StreamState),
      codeOccupancy l = 0 → s.clientReady = true → tm * 60 ≤ s.streamAloneTime + 10 →
      (monitorTick tm (.members l) s).2.1 = true ∧
      ((monitorTick tm (.members l) s).1).monitorActive = false ∧
      ((monitorTick tm (.members l) s).1).currentChannelEntry = none ∧
      ((monitorTick tm (.members l) s).1).voiceConnected = false ∧
      (monitorTick tm (.members l) s).2.2 =
        [StreamEvent.abortSignaled] ++
          (if s.monitorActive then [StreamEvent.monitorCleared] else []) ++
          [StreamEvent.voiceLeft]) ∧
    (∀ (tm : Int) (obsl : List PollObs) (s : StreamState),
      s.clientReady = true → (monitorRun tm obsl s).2 ≤ 1) := by
  refine ⟨?_, ?_, ?_, fun tm obsl s h => monitorRun_le_one tm obsl s h⟩
  · intro tm l s hocc hlt
    simp [monitorTick, hocc, show ¬ s.streamAloneTime + 10 ≥ tm * 60 from by omega]
  · intro tm l s hocc
    simp [monitorTick, hocc]
  · intro tm l s hocc hready hge
    simp [monitorTick, hocc, show s.streamAloneTime + 10 ≥ tm * 60 from by omega,
      stopStreaming, leaveVoiceChannel, hready]

/-- Witness for C5 at concrete polls: a zero-occupancy tick adds 10 seconds; a
threshold-reaching tick fires exactly once over a run. -/
theorem c5_witness :
    ((monitorTick 10 (.members [⟨false, true⟩]) ⟨true, none, true, 0, true⟩).1).streamAloneTime
      = 0 + 10 ∧
    (monitorTick 1 (.members [⟨false, true⟩]) ⟨true, none, true, 50, true⟩).2.1 = true ∧
    (monitorRun 1 [PollObs.members [⟨false, true⟩], PollObs.members [⟨false, true⟩]]
      ⟨true, none, true, 50, true⟩).2 ≤ 1 := by
  refine ⟨?_, ?_, c5_spectator_amended.2.2.2 1 _ _ rfl⟩
  · have h := c5_spectator_amended.1 10 [⟨false, true⟩] ⟨true, none, true, 0, true⟩
      (by decide) (by decide)
    rw [h]
  · exact (c5_spectator_amended.2.2.1 1 [⟨false, true⟩] ⟨true, none, true, 50, true⟩
      (by decide) rfl (by decide)).1

/-! ### C9 — grace-window clamping -/

/-- C9: the staleness age threshold is
`max(REFRESH_IPTV*60*1000 - 3*60*1000, 0)`: it is never negative, and for any
configured refresh interval of 3 minutes or less it is exactly 0, so any
record with positive age counts as stale. -/
theorem c9_grace_clamp :
    (∀ r : Int, r ≤ 3 → refreshTimeMs r = 0) ∧
    (∀ r dateMs nowMs : Int, r ≤ 3 → 0 < nowMs - dateMs →
      isOlderThanSetRefreshTime dateMs nowMs r = true) ∧
    (∀ r : Int, 0 ≤ refreshTimeMs r) := by
  refine ⟨?_, ?_, ?_⟩ <;> intros <;>
    simp only [refreshTimeMs, isOlderThanSetRefreshTime, decide_eq_true_eq] <;> omega

/-- Witness for C9 at a 2-minute interval and a 1 ms age. -/
theorem c9_witness :
    refreshTimeMs 2 = 0 ∧ isOlderThanSetRefreshTime 0 1 2 = true :=
  ⟨c9_grace_clamp.1 2 (by decide), c9_grace_clamp.2.1 2 0 1 (by decide) (by decide)⟩

/-! ### C10 — occupancy −1 when the streamer is absent -/

/-- C10: when no non-bot member is present (in particular the streaming
account itself is absent), the poll computes occupancy
`nonBotCount - 1 = -1`, which is non-zero, so the tick resets the idle
accumulator to zero; and the accumulator only ever grows on a poll whose
computed occupancy is exactly zero. -/
theorem c10_occupancy_resets :
    (∀ l : List VoiceMember,
      (∀ m ∈ l, m.isBot = true) → (∀ m ∈ l, m.isStreamer = false) →
      codeOccupancy l = -1 ∧
      ∀ (tm : Int) (s : StreamState),
        ((monitorTick tm (.members l) s).1).streamAloneTime = 0) ∧
    (∀ (tm : Int) (obs : PollObs) (s : StreamState),
      0 ≤ s.streamAloneTime →
      s.streamAloneTime < ((monitorTick tm obs s).1).streamAloneTime →
      ∃ l, obs = PollObs.members l ∧ codeOccupancy l = 0) := by
  constructor
  · intro l hbot _hstr
    have hf : l.filter (fun m => !m.isBot) = [] := by
      simp only [List.filter_eq_nil_iff]
      intro m hm
      simp [hbot m hm]
    constructor
    · simp [codeOccupancy, hf]
    · intro tm s
      simp [monitorTick, codeOccupancy, hf]
  · intro tm obs s h0 hgrow
    cases obs with
    | noConnection => simp [monitorTick] at hgrow
    | invalidChannel => simp [monitorTick] at hgrow
    | members l =>
      refine ⟨l, rfl, ?_⟩
      by_contra hne
      simp [monitorTick, hne] at hgrow
      omega

/-- Witness for C10: a bots-only channel yields occupancy −1 and a reset. -/
theorem c10_witness :
    codeOccupancy [⟨true, false⟩] = -1 ∧
    ((monitorTick 10 (.members [⟨true, false⟩]) ⟨true, none, true, 50, true⟩).1).streamAloneTime
      = 0 := by
  have h := c10_occupancy_resets.1 [⟨true, false⟩]
    (by intro m hm; simp at hm; subst hm; rfl)
    (by intro m hm; simp at hm; subst hm; rfl)
  exact ⟨h.1, h.2 10 ⟨true, none, true, 50, true⟩⟩

/-! ### C3 — staleness predicate -/

/-- The future-programme test of `isProgrammeDataStale`, in existential form. -/
theorem stopFuture_iff (q : ProgrammeEntry) (n : Int) :
    ((match q.stop_timestamp with
      | some ts => decide (ts ≥ n)
      | none => false) = true) ↔ ∃ ts, q.stop_timestamp = some ts ∧ n ≤ ts := by
  cases h : q.stop_timestamp <;> simp [h]


/-- C3: `isProgrammeDataStale` is true iff there are no programme records, or
the newest record's (`programmes[0]`, with its creation timestamp present per
the `ProgrammeEntry` interface) age exceeds the configured refresh interval
minus the 3-minute grace window, or no record's stop time is still in the
future; in particular it is false when the newest record's age is within
`refreshMinutes*60000 - 180000` ms and some stop time is still future.
(Stated for intervals of at least 3 minutes; below that the threshold is
clamped to 0, see C9.) -/
theorem c3_staleness_iff (programmes : List ProgrammeEntry) (nowMs refreshIPTV : Int)
    (hr : 3 ≤ refreshIPTV)
    (hc : ∀ p, programmes.head? = some p → p.created_at.isSome) :
    (isProgrammeDataStale programmes nowMs refreshIPTV = true ↔
      (programmes = [] ∨
       (∃ p t, programmes.head? = some p ∧ p.created_at = some t ∧
          nowMs - t > refreshIPTV * 60 * 1000 - 3 * 60 * 1000) ∨
       ¬ ∃ q ∈ programmes, ∃ ts, q.stop_timestamp = some ts ∧ Int.fdiv nowMs 1000 ≤ ts)) ∧
    (∀ p t, programmes.head? = some p → p.created_at = some t →
      nowMs - t ≤ refreshIPTV * 60 * 1000 - 3 * 60 * 1000 →
      (∃ q ∈ programmes, ∃ ts, q.stop_timestamp = some ts ∧ Int.fdiv nowMs 1000 ≤ ts) →
      isProgrammeDataStale programmes nowMs refreshIPTV = false) := by
  have hmax : refreshTimeMs refreshIPTV = refreshIPTV * 60 * 1000 - 3 * 60 * 1000 :=
    max_eq_left (by omega)
  have hiff : isProgrammeDataStale programmes nowMs refreshIPTV = true ↔
      (programmes = [] ∨
       (∃ p t, programmes.head? = some p ∧ p.created_at = some t ∧
          nowMs - t > refreshIPTV * 60 * 1000 - 3 * 60 * 1000) ∨
       ¬ ∃ q ∈ programmes, ∃ ts, q.stop_timestamp = some ts ∧ Int.fdiv nowMs 1000 ≤ ts) := by
    cases programmes with
    | nil => simp [isProgrammeDataStale]
    | cons p rest =>
      have hsome := hc p rfl
      obtain ⟨t, hct⟩ := Option.isSome_iff_exists.mp hsome
      by_cases hold : nowMs - t > refreshIPTV * 60 * 1000 - 3 * 60 * 1000
      · have : isOlderThanSetRefreshTime t nowMs refreshIPTV = true := by
          simp [isOlderThanSetRefreshTime, hmax]; omega
        simp only [isProgrammeDataStale, hct, this, if_pos rfl]
        simp only [List.head?_cons, Option.some.injEq]
        constructor
        · intro _
          exact Or.inr (Or.inl ⟨p, t, rfl, hct, hold⟩)
        · intro _; rfl
      · have hno : isOlderThanSetRefreshTime t nowMs refreshIPTV = false := by
          simp [isOlderThanSetRefreshTime, hmax]; omega
        simp only [isProgrammeDataStale, hct, hno]
        simp only [Bool.false_eq_true, if_false, List.head?_cons]
        by_cases hany : (p :: rest).any
            (fun q => match q.stop_timestamp with
              | some ts => decide (ts ≥ Int.fdiv nowMs 1000)
              | none => false) = true
        · rw [if_pos hany]
          simp only [Bool.false_eq_true, false_iff]
          intro hfalse
          rcases hfalse with h1 | h2 | h3
          · cases h1
          · obtain ⟨p', t', hp', hct', hgt⟩ := h2
            rw [Option.some.injEq] at hp'
            subst hp'
            rw [hct] at hct'
            cases hct'
            omega
          · apply h3
            rw [List.any_eq_true] at hany
            obtain ⟨q, hq, hmatch⟩ := hany
            exact ⟨q, hq, (stopFuture_iff q (Int.fdiv nowMs 1000)).mp hmatch⟩
        · simp only [Bool.not_eq_true] at hany
          rw [if_neg (by simp [hany])]
          simp only [true_iff]
          refine Or.inr (Or.inr ?_)
          intro ⟨q, hq, ts, hts, hge⟩
          rw [Bool.eq_false_iff] at hany
          apply hany
          rw [List.any_eq_true]
          exact ⟨q, hq, (stopFuture_iff q (Int.fdiv nowMs 1000)).mpr ⟨ts, hts, hge⟩⟩
  refine ⟨hiff, ?_⟩
  intro p t hp hct hle hfut
  rw [Bool.eq_false_iff]
  intro hstale
  rcases hiff.mp hstale with h1 | h2 | h3
  · rw [h1] at hp; cases hp
  · obtain ⟨p2, t2, hp2, hct2, hgt⟩ := h2
    rw [hp] at hp2
    rw [Option.some.injEq] at hp2
    subst hp2
    rw [hct] at hct2
    rw [Option.some.injEq] at hct2
    subst hct2
    omega
  · exact h3 hfut

/-- Witness for C3: one fresh record with a future stop time is not stale. -/
theorem c3_witness :
    isProgrammeDataStale [⟨['c'], ['T'], some 1000, some 0, some 5000⟩] 2000 1440 = false :=
  (c3_staleness_iff [⟨['c'], ['T'], some 1000, some 0, some 5000⟩] 2000 1440
      (by decide) (by intro p hp; cases hp; rfl)).2
    ⟨['c'], ['T'], some 1000, some 0, some 5000⟩ 1000 rfl rfl (by decide)
    ⟨⟨['c'], ['T'], some 1000, some 0, some 5000⟩, by simp, 5000, rfl, by decide⟩


/-! ### C4 — playlist-into-guide merge -/

/-- `Map.set` then `get` on the same key returns the new value. -/
theorem mapLookup_set_self (m : ChannelMap) (k : JsString) (v : ChannelEntry) :
    mapLookup (mapSet m k v) k = some v := by
  induction m with
  | nil => simp [mapSet, mapLookup]
  | cons e r ih =>
    obtain ⟨k0, v0⟩ := e
    by_cases h : k0 = k <;> simp [mapSet, mapLookup, h, ih]

/-- `Map.set` leaves other keys untouched. -/
theorem mapLookup_set_ne (m : ChannelMap) (k k1 : JsString) (v : ChannelEntry)
    (h : k1 ≠ k) : mapLookup (mapSet m k v) k1 = mapLookup m k1 := by
  induction m with
  | nil =>
    have hne : ¬ k = k1 := fun hh => h hh.symm
    simp [mapSet, mapLookup, hne]
  | cons e r ih =>
    obtain ⟨k0, v0⟩ := e
    by_cases h0 : k0 = k
    · subst h0
      have hne : ¬ k0 = k1 := fun hh => h hh.symm
      simp [mapSet, mapLookup, hne]
    · simp only [mapSet, if_neg h0]
      by_cases h1 : k0 = k1 <;> simp [mapLookup, h1, ih]

/-- Provided no existing channel id has the positional-fallback form
`playlist_<n>`, the merge loop preserves the display name stored under every
key of the original (guide-sourced) map. -/
theorem mergeLoop_names (base : ChannelMap)
    (hb : ∀ n : Nat, mapLookup base ("playlist_".data ++ (Nat.repr n).data) = none) :
    ∀ (ps : List ChannelEntry) (i : Nat) (m : ChannelMap),
      (∀ k v0, mapLookup base k = some v0 →
        ∃ v, mapLookup m k = some v ∧ v.tvg_name = v0.tvg_name) →
      ∀ k v0, mapLookup base k = some v0 →
        ∃ v, mapLookup (mergeLoop i ps m) k = some v ∧ v.tvg_name = v0.tvg_name := by
  intro ps
  induction ps with
  | nil => intro i m hm k v0 hk; simpa [mergeLoop] using hm k v0 hk
  | cons p r ih =>
    intro i m hm k v0 hk
    simp only [mergeLoop]
    apply ih (i + 1) (mergeStep m i p) _ k v0 hk
    intro k1 w0 hk1
    obtain ⟨w, hw, hwname⟩ := hm k1 w0 hk1
    unfold mergeStep
    cases hmatch : (if p.tvg_id ≠ [] then mapLookup m p.tvg_id else none) with
    | some ex =>
      have hcond : p.tvg_id ≠ [] := by
        by_contra hc
        simp [hc] at hmatch
      rw [if_pos hcond] at hmatch
      by_cases hkk : k1 = p.tvg_id
      · subst hkk
        rw [hw] at hmatch
        cases hmatch
        exact ⟨_, mapLookup_set_self m p.tvg_id _, hwname⟩
      · rw [mapLookup_set_ne m p.tvg_id k1 _ hkk]
        exact ⟨w, hw, hwname⟩
    | none =>
      by_cases hkk : k1 = playlistKey p i
      · exfalso
        by_cases hid : p.tvg_id = []
        · rw [playlistKey, if_neg (by simp [hid])] at hkk
          rw [hkk] at hk1
          rw [hb i] at hk1
          cases hk1
        · rw [if_pos hid] at hmatch
          rw [playlistKey, if_pos hid] at hkk
          rw [hkk] at hw
          rw [hmatch] at hw
          cases hw
      · rw [mapLookup_set_ne m (playlistKey p i) k1 p hkk]
        exact ⟨w, hw, hwname⟩


/-- C4 counterexample to the claim as stated: an existing guide-sourced
channel whose id is literally `playlist_0` and whose name is non-empty is
clobbered by an id-less playlist record inserted under the positional
fallback key `playlist_0`, downgrading the non-empty display name to an empty
one. -/
theorem c4_counterexample :
    mapLookup (mapFromList [⟨some 0, "playlist_0".data, ['N'], [], [], [], none, []⟩])
        ("playlist_0".data) =
      some ⟨some 0, "playlist_0".data, ['N'], [], [], [], none, []⟩ ∧
    mapLookup
        (mergePlaylistChannels
          [⟨some 0, "playlist_0".data, ['N'], [], [], [], none, []⟩]
          [⟨some 0, [], [], [], [], ['U'], none, []⟩])
        ("playlist_0".data) =
      some ⟨some 0, [], [], [], [], ['U'], none, []⟩ := by
  constructor <;> rfl

/-- C4 (amended): on an id match only the `url` (always) and
`group_title`/`tvg_logo` (when non-empty on the playlist side) fields are
overwritten, preserving the guide-sourced name, id and all other fields, and
no other key changes; on no match the record is inserted under the playlist
id or the positional fallback key; merging `{id:"c1", name:"N"}` with
`{id:"c1", url:"U"}` yields `{id:"c1", name:"N", url:"U"}`; and — provided no
existing channel id has the positional-fallback form `playlist_<n>` — a
channel whose display name was non-empty before the merge never has an empty
display name after it. -/
theorem c4_merge_amended :
    (∀ (m : ChannelMap) (i : Nat) (p ex : ChannelEntry),
      p.tvg_id ≠ [] → mapLookup m p.tvg_id = some ex →
      (∃ v, mapLookup (mergeStep m i p) p.tvg_id = some v ∧
        v.tvg_name = ex.tvg_name ∧ v.tvg_id = ex.tvg_id ∧ v.xui_id = ex.xui_id ∧
        v.created_at = ex.created_at ∧ v.country = ex.country ∧ v.url = p.url ∧
        v.group_title = (if p.group_title ≠ [] then p.group_title else ex.group_title) ∧
        v.tvg_logo = (if p.tvg_logo ≠ [] then p.tvg_logo else ex.tvg_logo)) ∧
      (∀ k, k ≠ p.tvg_id → mapLookup (mergeStep m i p) k = mapLookup m k)) ∧
    (∀ (m : ChannelMap) (i : Nat) (p : ChannelEntry),
      p.tvg_id = [] ∨ mapLookup m p.tvg_id = none →
      mergeStep m i p = mapSet m (playlistKey p i) p) ∧
    (mergePlaylistChannels [⟨some 0, "c1".data, ['N'], [], [], [], none, []⟩]
        [⟨some 0, "c1".data, [], [], [], ['U'], none, []⟩] =
      [("c1".data, ⟨some 0, "c1".data, ['N'], [], [], ['U'], none, []⟩)]) ∧
    (∀ (existing playlist : List ChannelEntry),
      (∀ n : Nat, mapLookup (mapFromList existing)
          ("playlist_".data ++ (Nat.repr n).data) = none) →
      ∀ k v0, mapLookup (mapFromList existing) k = some v0 → v0.tvg_name ≠ [] →
      ∃ v, mapLookup (mergePlaylistChannels existing playlist) k = some v ∧
        v.tvg_name ≠ []) := by
  refine ⟨?_, ?_, by rfl, ?_⟩
  · intro m i p ex hid hex
    have hstep : mergeStep m i p = mapSet m p.tvg_id
        { ex with
            url := p.url
            group_title := if p.group_title ≠ [] then p.group_title else ex.group_title
            tvg_logo := if p.tvg_logo ≠ [] then p.tvg_logo else ex.tvg_logo } := by
      simp only [mergeStep, if_pos hid, hex]
    constructor
    · refine ⟨{ ex with
          url := p.url
          group_title := if p.group_title ≠ [] then p.group_title else ex.group_title
          tvg_logo := if p.tvg_logo ≠ [] then p.tvg_logo else ex.tvg_logo },
        ?_, rfl, rfl, rfl, rfl, rfl, rfl, rfl, rfl⟩
      rw [hstep]
      exact mapLookup_set_self m p.tvg_id _
    · intro k hk
      rw [hstep]
      exact mapLookup_set_ne m p.tvg_id k _ hk
  · intro m i p hcase
    rcases hcase with hid | hnone
    · simp only [mergeStep, hid, ne_eq, not_true_eq_false, if_false]
    · by_cases hid : p.tvg_id = []
      · simp only [mergeStep, hid, ne_eq, not_true_eq_false, if_false]
      · simp only [mergeStep, if_pos hid, hnone]
  · intro existing playlist hb k v0 hk hname
    obtain ⟨v, hv, hvn⟩ := mergeLoop_names (mapFromList existing) hb playlist 0
      (mapFromList existing) (fun k1 w0 hk1 => ⟨w0, hk1, rfl⟩) k v0 hk
    exact ⟨v, hv, by rw [hvn]; exact hname⟩

/-- Witness for C4: the name-preservation part applied to the concrete
`c1` merge. -/
theorem c4_witness :
    ∃ v, mapLookup
        (mergePlaylistChannels [⟨some 0, "c1".data, ['N'], [], [], [], none, []⟩]
          [⟨some 0, "c1".data, [], [], [], ['U'], none, []⟩]) ("c1".data) = some v ∧
      v.tvg_name ≠ [] := by
  apply c4_merge_amended.2.2.2
  · intro n
    have hne : ("c1".data : JsString) ≠ "playlist_".data ++ (Nat.repr n).data := by
      intro h
      have hh : List.head? ("c1".data : JsString) =
          List.head? ("playlist_".data ++ (Nat.repr n).data) := congrArg List.head? h
      have hp : List.head? ("playlist_".data ++ (Nat.repr n).data) = some 'p' := rfl
      rw [hp] at hh
      exact absurd hh (by decide)
    simp [mapFromList, mapSet, mapLookup, hne]
  · rfl
  · decide

/-! ### C6 — playlist line acceptance -/

/-- `parseAlternativeFormat` accepts only records with an id or a name. -/
theorem acceptIfIdOrName_guard (v e : ChannelEntry) (h : acceptIfIdOrName v = some e) :
    e.tvg_id ≠ [] ∨ e.tvg_name ≠ [] := by
  unfold acceptIfIdOrName at h
  split at h
  · cases h; assumption
  · cases h

/-- `parseFlexibleFormat` accepts only records with a name. -/
theorem acceptIfName_guard (v e : ChannelEntry) (h : acceptIfName v = some e) :
    e.tvg_name ≠ [] := by
  unfold acceptIfName at h
  split at h
  · cases h; assumption
  · cases h

/-- Any record produced by the second strategy has an id or a name. -/
theorem parseAlternativeFormat_guard (line : JsString) (e : ChannelEntry)
    (h : parseAlternativeFormat line = some e) :
    e.tvg_id ≠ [] ∨ e.tvg_name ≠ [] := by
  unfold parseAlternativeFormat at h
  split at h
  · cases h
  · exact acceptIfIdOrName_guard _ e h

/-- Any record produced by the third strategy has a name. -/
theorem parseFlexibleFormat_guard (line : JsString) (e : ChannelEntry)
    (h : parseFlexibleFormat line = some e) :
    e.tvg_name ≠ [] := by
  unfold parseFlexibleFormat at h
  split at h
  · cases h
  · exact acceptIfName_guard _ e h

set_option maxRecDepth 8000 in
/-- C6 counterexample to the claim as stated: a line matching the strict
fixed-order pattern with all-empty attribute values is accepted by
`fromPlaylistLine` (via `parseOriginalFormat`, which has no non-emptiness
check) even though the resulting record has an empty id and an empty name. -/
theorem c6_counterexample :
    fromPlaylistLine
        ("#EXTINF:-1 channelID=\"\" tvg-chno=\"\" tvg-name=\"\" tvg-id=\"\" tvg-logo=\"\" group-title=\"\"".data) =
      some ⟨some 0, [], [], [], [], [], none, []⟩ := by
  rfl

/-- C6 (amended): every record produced by `fromPlaylistLine` has a non-empty
id or a non-empty name, unless it came from the first (strict fixed-order
pattern) strategy, which returns a record whenever the pattern matches, even
with empty attribute values. -/
theorem c6_parser_amended (line : JsString) (e : ChannelEntry)
    (h : fromPlaylistLine line = some e) :
    e.tvg_id ≠ [] ∨ e.tvg_name ≠ [] ∨ parseOriginalFormat line = some e := by
  unfold fromPlaylistLine at h
  cases ho : parseOriginalFormat line with
  | some v =>
    rw [ho] at h
    simp only [Option.orElse] at h
    rw [Option.some.injEq] at h
    subst h
    exact Or.inr (Or.inr rfl)
  | none =>
    rw [ho] at h
    simp only [Option.orElse] at h
    cases ha : parseAlternativeFormat line with
    | some v =>
      rw [ha] at h
      simp only at h
      rw [Option.some.injEq] at h
      subst h
      exact (parseAlternativeFormat_guard line _ ha).imp id Or.inl
    | none =>
      rw [ha] at h
      simp only at h
      exact Or.inr (Or.inl (parseFlexibleFormat_guard line e h))

set_option maxRecDepth 8000 in
/-- Witness for C6 at the specification's example line (parsed by the second
strategy, with a non-empty id and name). -/
theorem c6_witness :
    (⟨some 0, "id1".data, "Name".data, [], [], [], none, []⟩ : ChannelEntry).tvg_id ≠ [] ∨
    (⟨some 0, "id1".data, "Name".data, [], [], [], none, []⟩ : ChannelEntry).tvg_name ≠ [] ∨
    parseOriginalFormat ("#EXTINF:-1 tvg-id=\"id1\" tvg-name=\"Name\",Name".data) =
      some ⟨some 0, "id1".data, "Name".data, [], [], [], none, []⟩ :=
  c6_parser_amended ("#EXTINF:-1 tvg-id=\"id1\" tvg-name=\"Name\",Name".data)
    ⟨some 0, "id1".data, "Name".data, [], [], [], none, []⟩ (by rfl)


/-! ### C8 — refresh frame effect -/

/-- Playlist synchronization never touches the programme collection. -/
theorem syncPlaylistChannels_programmes (env : RefreshEnv) (db : DB) :
    (syncPlaylistChannels env db).programmes = db.programmes := by
  unfold syncPlaylistChannels
  cases env.playlistContent with
  | none => rfl
  | some content =>
    simp only
    split <;> rfl

/-- C8: `executeRefresh("channels")` runs only the playlist synchronization
and leaves the programme collection unchanged for every environment and
database state, while `executeRefresh("all")` (when both sources are
configured, the fetches succeed, the parse yields channels and programmes and
the merged channel set is non-empty) replaces the channel collection with the
merged set and the programme collection with the parsed programmes. -/
theorem c8_refresh_frame :
    (∀ (env : RefreshEnv) (db : DB),
      ((executeRefresh ("channels".data) env db).1).programmes = db.programmes) ∧
    (∀ (env : RefreshEnv) (db : DB) (parsed : ParsedXMLTV) (content : JsString),
      env.xmltvConfigured = true → env.playlistConfigured = true →
      env.xmltv = some parsed → parsed.channels ≠ [] → parsed.programmes ≠ [] →
      env.playlistContent = some content →
      mapValues (mergePlaylistChannels parsed.channels
        (collectPlaylistChannels env.nowIso (splitOnChar '\n' content) none)) ≠ [] →
      (executeRefresh ("all".data) env db).1 =
        { channels := mapValues (mergePlaylistChannels parsed.channels
            (collectPlaylistChannels env.nowIso (splitOnChar '\n' content) none)),
          programmes := parsed.programmes }) := by
  constructor
  · intro env db
    unfold executeRefresh
    rw [if_neg (by decide), if_pos rfl]
    exact syncPlaylistChannels_programmes env db
  · intro env db parsed content hx hp hxm hch hpr hpc hmv
    unfold executeRefresh
    rw [if_pos rfl]
    unfold downloadCacheAndFillDb
    rw [if_pos hx, if_pos hp]
    have hpop : populateDatabaseFromXMLTV true env db =
        { channels := parsed.channels, programmes := parsed.programmes } := by
      unfold populateDatabaseFromXMLTV
      rw [if_neg (by simp), hxm]
      simp [hch, hpr]
    rw [hpop]
    unfold syncPlaylistChannels
    rw [hpc]
    simp only
    rw [if_pos (by simpa using hmv)]

/-- Witness for C8: a channels-only refresh leaves a concrete programme list
untouched, and a full refresh replaces both collections. -/
theorem c8_witness :
    ((executeRefresh ("channels".data)
        ⟨true, true, none, none, [], false⟩
        ⟨[], [⟨['c'], ['T'], some 0, some 0, some 0⟩]⟩).1).programmes =
      [⟨['c'], ['T'], some 0, some 0, some 0⟩] ∧
    (executeRefresh ("all".data)
        ⟨true, true, some ⟨[⟨some 0, ['i'], ['N'], [], [], ['u'], none, []⟩],
          [⟨['c'], ['T'], some 0, some 0, some 0⟩]⟩, some [], [], false⟩
        ⟨[], []⟩).1 =
      ⟨[⟨some 0, ['i'], ['N'], [], [], ['u'], none, []⟩],
       [⟨['c'], ['T'], some 0, some 0, some 0⟩]⟩ := by
  constructor
  · exact c8_refresh_frame.1 ⟨true, true, none, none, [], false⟩
      ⟨[], [⟨['c'], ['T'], some 0, some 0, some 0⟩]⟩
  · exact c8_refresh_frame.2
      ⟨true, true, some ⟨[⟨some 0, ['i'], ['N'], [], [], ['u'], none, []⟩],
        [⟨['c'], ['T'], some 0, some 0, some 0⟩]⟩, some [], [], false⟩
      ⟨[], []⟩
      ⟨[⟨some 0, ['i'], ['N'], [], [], ['u'], none, []⟩],
        [⟨['c'], ['T'], some 0, some 0, some 0⟩]⟩
      [] rfl rfl rfl (by decide) (by decide) rfl (by decide)


/-! ### C7 — guide date parser -/

/-- The fuel-based digit extraction agrees with `Nat.digits 10`. -/
theorem natDigitsAux_eq (fuel : Nat) :
    ∀ n : Nat, n ≤ fuel → natDigitsAux fuel n = Nat.digits 10 n := by
  induction fuel with
  | zero =>
    intro n hn
    interval_cases n
    simp [natDigitsAux, Nat.digits_zero]
  | succ fuel ih =>
    intro n hn
    cases n with
    | zero => simp [natDigitsAux, Nat.digits_zero]
    | succ m =>
      show (m + 1) % 10 :: natDigitsAux fuel ((m + 1) / 10) = Nat.digits 10 (m + 1)
      rw [ih ((m + 1) / 10) (by
        have := Nat.div_lt_self (Nat.succ_pos m) (by norm_num : 1 < 10)
        omega)]
      rw [Nat.digits_def' (by norm_num : 1 < 10) (Nat.succ_pos m)]

/-- Digit characters parse back to their value. -/
theorem digitVal_digitChar (d : Nat) (hd : d < 10) :
    digitVal? (digitChar d) = some d := by
  interval_cases d <;> rfl

/-- Digit characters are not whitespace. -/
theorem digit_not_ws (c : Char) (h : (digitVal? c).isSome) : isJsWs c = false := by
  unfold digitVal? at h
  split at h
  · rename_i hc
    unfold isJsWs
    simp only [decide_eq_false_iff_not]
    rintro (rfl | rfl | rfl | rfl | rfl | rfl) <;> revert hc <;> decide
  · cases h

/-- Digit characters are not sign characters or spaces. -/
theorem digit_ne_sign (c : Char) (h : (digitVal? c).isSome) :
    c ≠ '-' ∧ c ≠ '+' ∧ c ≠ ' ' := by
  unfold digitVal? at h
  split at h
  · rename_i hc
    refine ⟨?_, ?_, ?_⟩ <;> rintro rfl <;> revert hc <;> decide
  · cases h

/-- Every character of a decimal rendering is a digit. -/
theorem renderNat_digits (n : Nat) : ∀ c ∈ renderNat n, (digitVal? c).isSome := by
  intro c hc
  unfold renderNat at hc
  rw [natDigitsAux_eq n n le_rfl] at hc
  split at hc
  · simp at hc
    subst hc
    rfl
  · simp only [List.mem_reverse, List.mem_map] at hc
    obtain ⟨d, hd, rfl⟩ := hc
    rw [digitVal_digitChar d (Nat.digits_lt_base (by norm_num) hd)]
    rfl

/-- A number below `10^w` renders in at most `w` digits. -/
theorem renderNat_len_le (n w : Nat) (hw : 1 ≤ w) (h : n < 10 ^ w) :
    (renderNat n).length ≤ w := by
  unfold renderNat
  rw [natDigitsAux_eq n n le_rfl]
  split
  · simpa using hw
  · rename_i hn
    simp only [List.length_reverse, List.length_map]
    by_contra hlen
    push_neg at hlen
    have hb := Nat.base_pow_length_digits_le 10 n (by norm_num) hn
    have h1 : 10 ^ (w + 1) ≤ 10 ^ (Nat.digits 10 n).length :=
      Nat.pow_le_pow_right (by norm_num) hlen
    have h2 : 10 * n < 10 * 10 ^ w := by omega
    have h3 : 10 * 10 ^ w = 10 ^ (w + 1) := by ring
    omega

/-- Padded renderings have exactly the requested width. -/
theorem padNat_len (n w : Nat) (hw : 1 ≤ w) (h : n < 10 ^ w) :
    (padNat w n).length = w := by
  unfold padNat
  have := renderNat_len_le n w hw h
  simp only [List.length_append, List.length_replicate]
  omega


/-- The `parseInt` accumulator fold, expressed through `Nat.ofDigits`. -/
theorem foldl_digits_eq (l : List Nat) :
    ∀ acc : Nat, List.foldl (fun a d => a * 10 + d) acc l =
      acc * 10 ^ l.length + Nat.ofDigits 10 l.reverse := by
  induction l with
  | nil => intro acc; simp [Nat.ofDigits]
  | cons d r ih =>
    intro acc
    simp only [List.foldl_cons, List.length_cons, List.reverse_cons]
    rw [ih (acc * 10 + d), Nat.ofDigits_append]
    simp [Nat.ofDigits]
    ring

/-- `digitsVal` is `Nat.ofDigits 10` of the reversed digit list. -/
theorem digitsVal_eq (l : List Nat) : digitsVal l = Nat.ofDigits 10 l.reverse := by
  unfold digitsVal
  rw [foldl_digits_eq l 0]
  simp

/-- Leading zeros contribute nothing. -/
theorem ofDigits_replicate_zero (k : Nat) :
    Nat.ofDigits 10 (List.replicate k 0) = 0 := by
  induction k with
  | zero => rfl
  | succ k ih => simp [List.replicate, Nat.ofDigits, ih]

/-- Extracting digit values undoes `digitChar`. -/
theorem filterMap_digitChar (l : List Nat) (h : ∀ d ∈ l, d < 10) :
    (l.map digitChar).filterMap digitVal? = l := by
  induction l with
  | nil => rfl
  | cons d r ih =>
    simp only [List.map_cons, List.filterMap_cons]
    rw [digitVal_digitChar d (h d (by simp))]
    simp only
    rw [ih (fun x hx => h x (by simp [hx]))]

/-- The digit values of a padded rendering. -/
theorem filterMap_padNat (w n : Nat) :
    (padNat w n).filterMap digitVal? =
      List.replicate (w - (renderNat n).length) 0 ++
        (if n = 0 then [0] else (Nat.digits 10 n).reverse) := by
  unfold padNat
  rw [List.filterMap_append]
  congr 1
  · generalize w - (renderNat n).length = k
    induction k with
    | zero => rfl
    | succ k ih => simp [List.replicate, List.filterMap_cons, ih]; rfl
  · unfold renderNat
    rw [natDigitsAux_eq n n le_rfl]
    split
    · rfl
    · rw [List.filterMap_reverse, filterMap_digitChar _
        (fun d hd => Nat.digits_lt_base (by norm_num) hd)]

/-- Parsing the digit values of a padded rendering recovers the number. -/
theorem digitsVal_padNat (w n : Nat) :
    digitsVal ((padNat w n).filterMap digitVal?) = n := by
  rw [filterMap_padNat, digitsVal_eq]
  rw [List.reverse_append, List.reverse_replicate]
  split
  · rename_i hn
    subst hn
    simp [Nat.ofDigits_append, ofDigits_replicate_zero, Nat.ofDigits]
  · rw [List.reverse_reverse, Nat.ofDigits_append, ofDigits_replicate_zero,
      Nat.ofDigits_digits]
    ring


/-- Every character of a padded rendering is a digit. -/
theorem padNat_all_digits (w n : Nat) :
    ∀ c ∈ padNat w n, (digitVal? c).isSome := by
  intro c hc
  unfold padNat at hc
  rw [List.mem_append] at hc
  rcases hc with hc | hc
  · rw [List.eq_of_mem_replicate hc]
    rfl
  · exact renderNat_digits n c hc

/-- `parseInt`'s whitespace skipping is the identity on digit strings. -/
theorem dropWhile_ws_all_digits (l : JsString) (h : ∀ c ∈ l, (digitVal? c).isSome) :
    l.dropWhile isJsWs = l := by
  cases l with
  | nil => rfl
  | cons c r =>
    rw [List.dropWhile_cons_of_neg]
    rw [digit_not_ws c (h c (by simp))]
    simp

/-- The digit prefix of an all-digit string is the whole string. -/
theorem takeWhile_all_digits (l : JsString) (h : ∀ c ∈ l, (digitVal? c).isSome) :
    l.takeWhile (fun c => (digitVal? c).isSome) = l := by
  induction l with
  | nil => rfl
  | cons c r ih =>
    rw [List.takeWhile_cons_of_pos (by simpa using h c (by simp))]
    rw [ih (fun x hx => h x (by simp [hx]))]

/-- `parseInt` of a zero-padded decimal rendering recovers the number. -/
theorem parseIntJS_padNat (w n : Nat) (hw : 1 ≤ w) (h : n < 10 ^ w) :
    parseIntJS (padNat w n) = some (n : Int) := by
  unfold parseIntJS
  rw [dropWhile_ws_all_digits _ (padNat_all_digits w n)]
  have hlen := padNat_len n w hw h
  cases hp : padNat w n with
  | nil => rw [hp] at hlen; simp at hlen; omega
  | cons c r =>
    have hcd : (digitVal? c).isSome := by
      apply padNat_all_digits w n
      rw [hp]; simp
    obtain ⟨h1, h2, _⟩ := digit_ne_sign c hcd
    show (if c = '-' then Option.map (fun m => -m) (parseDigits r)
        else if c = '+' then parseDigits r else parseDigits (c :: r)) = some (n : Int)
    rw [if_neg h1, if_neg h2]
    unfold parseDigits
    rw [← hp, takeWhile_all_digits _ (padNat_all_digits w n)]
    rw [if_neg (by intro hh; rw [hh] at hlen; simp at hlen; omega)]
    rw [digitsVal_padNat]


/-- `split` never yields an empty part list. -/
theorem splitOnChar_ne_nil (sep : Char) (s : JsString) :
    splitOnChar sep s ≠ [] := by
  cases s with
  | nil => simp [splitOnChar]
  | cons c r =>
    unfold splitOnChar
    split
    · simp
    · split <;> simp

/-- `split` of a separator-free string is that string alone. -/
theorem splitOnChar_no_sep (sep : Char) (s : JsString) (h : ∀ c ∈ s, c ≠ sep) :
    splitOnChar sep s = [s] := by
  induction s with
  | nil => rfl
  | cons c r ih =>
    unfold splitOnChar
    rw [ih (fun x hx => h x (by simp [hx]))]
    show (if c = sep then ([[], r] : List JsString) else [c :: r]) = [c :: r]
    rw [if_neg (h c (by simp))]

/-- `split` at the first separator occurrence. -/
theorem splitOnChar_append (sep : Char) (a b : JsString) (h : ∀ c ∈ a, c ≠ sep) :
    splitOnChar sep (a ++ sep :: b) = a :: splitOnChar sep b := by
  induction a with
  | nil =>
    simp only [List.nil_append]
    show (match splitOnChar sep b with
      | [] => ([[]] : List JsString)
      | p :: ps => if sep = sep then [] :: p :: ps else (sep :: p) :: ps) =
      [] :: splitOnChar sep b
    cases hb : splitOnChar sep b with
    | nil => exact absurd hb (splitOnChar_ne_nil sep b)
    | cons p ps => simp
  | cons c r ih =>
    simp only [List.cons_append, splitOnChar, List.append_eq]
    rw [ih (fun x hx => h x (by simp [hx]))]
    simp only [if_neg (h c (by simp))]

/-- Taking exactly the length of the left part of an append. -/
theorem take_len_append (l1 l2 : JsString) (n : Nat) (h : l1.length = n) :
    (l1 ++ l2).take n = l1 := by
  subst h; exact List.take_left l1 l2

/-- Dropping exactly the length of the left part of an append. -/
theorem drop_len_append (l1 l2 : JsString) (n : Nat) (h : l1.length = n) :
    (l1 ++ l2).drop n = l2 := by
  subst h; exact List.drop_left l1 l2

/-- The day component enters the civil-day count linearly. -/
theorem daysFromCivil_day (y mo d : Int) :
    daysFromCivil y mo 1 + (d - 1) = daysFromCivil y mo d := by
  simp only [daysFromCivil]
  ring

/-- For in-range components (year ≥ 1000, month 1–12), `Date.UTC` agrees with
the proleptic Gregorian instant. -/
theorem dateUTCms_eq_utcMillis (y mo d h mi s : Int)
    (hy : 1000 ≤ y) (hmo1 : 1 ≤ mo) (hmo2 : mo ≤ 12) :
    dateUTCms y (mo - 1) d h mi s = utcMillis y mo d h mi s := by
  simp only [dateUTCms, utcMillis]
  rw [if_neg (by omega)]
  have hfd : Int.fdiv (y * 12 + (mo - 1)) 12 = y := by
    rw [Int.fdiv_eq_ediv _ (by omega)]
    omega
  have hmd : Int.emod (y * 12 + (mo - 1)) 12 = mo - 1 := by
    have h2 : (y * 12 + (mo - 1)) % 12 = mo - 1 := by omega
    exact h2
  rw [hfd, hmd]
  have hmo : mo - 1 + 1 = mo := by ring
  rw [hmo]
  rw [← daysFromCivil_day y mo d]


/-- C7: `parseDate` maps a `YYYYMMDDHHMMSS` string of an in-range civil
date-time (year 1000–9999, valid month/day, h/min/sec in range), with an
optional space-separated `±HHMM` offset, to the corresponding UTC instant:
the proleptic Gregorian epoch-milliseconds of the components minus the
offset. -/
theorem c7_parse_date (y mo d h mi s oh om : Nat) (sign : Char)
    (hy1 : 1000 ≤ y) (hy2 : y ≤ 9999) (hmo1 : 1 ≤ mo) (hmo2 : mo ≤ 12)
    (hd1 : 1 ≤ d) (hd2 : (d : Int) ≤ daysInMonth (y : Int) (mo : Int))
    (hh : h ≤ 23) (hmi : mi ≤ 59) (hs : s ≤ 59)
    (hsign : sign = '+' ∨ sign = '-') (hoh : oh ≤ 99) (hom : om ≤ 59) :
    parseDate (renderTimestamp y mo d h mi s) =
      .ok (utcMillis (y : Int) (mo : Int) (d : Int) (h : Int) (mi : Int) (s : Int)) ∧
    parseDate (renderTimestamp y mo d h mi s ++ renderOffset sign oh om) =
      .ok (utcMillis (y : Int) (mo : Int) (d : Int) (h : Int) (mi : Int) (s : Int) -
        (if sign = '+' then 1 else -1) * ((oh : Int) * 60 + (om : Int)) * 60000) := by
  have hd31 : d ≤ 31 := by
    have hdm : daysInMonth (y : Int) (mo : Int) ≤ 31 := by
      unfold daysInMonth
      split
      · split <;> omega
      · split <;> omega
    have : (d : Int) ≤ 31 := le_trans hd2 hdm
    exact_mod_cast this
  have hp10 : (10 : Nat) ^ 4 = 10000 := by norm_num
  have hp2 : (10 : Nat) ^ 2 = 100 := by norm_num
  have l4 : (padNat 4 y).length = 4 := padNat_len y 4 (by omega) (by omega)
  have lmo : (padNat 2 mo).length = 2 := padNat_len mo 2 (by omega) (by omega)
  have ld : (padNat 2 d).length = 2 := padNat_len d 2 (by omega) (by omega)
  have lh : (padNat 2 h).length = 2 := padNat_len h 2 (by omega) (by omega)
  have lmi : (padNat 2 mi).length = 2 := padNat_len mi 2 (by omega) (by omega)
  have ls : (padNat 2 s).length = 2 := padNat_len s 2 (by omega) (by omega)
  have loh : (padNat 2 oh).length = 2 := padNat_len oh 2 (by omega) (by omega)
  have lom : (padNat 2 om).length = 2 := padNat_len om 2 (by omega) (by omega)
  have hT : renderTimestamp y mo d h mi s =
      padNat 4 y ++ (padNat 2 mo ++ (padNat 2 d ++ (padNat 2 h ++ (padNat 2 mi ++ padNat 2 s)))) := by
    simp [renderTimestamp, List.append_assoc]
  set ts := renderTimestamp y mo d h mi s with hts
  have hlen : ts.length = 14 := by
    rw [hT]
    simp only [List.length_append, l4, lmo, ld, lh, lmi, ls]
  have tsdig : ∀ c ∈ ts, (digitVal? c).isSome := by
    intro c hc
    rw [hT] at hc
    simp only [List.mem_append] at hc
    rcases hc with hc | hc | hc | hc | hc | hc <;> exact padNat_all_digits _ _ c hc
  have hnospace : ∀ c ∈ ts, c ≠ ' ' :=
    fun c hc => (digit_ne_sign c (tsdig c hc)).2.2
  have ht4 : ts.take 4 = padNat 4 y := by
    rw [hT]; exact take_len_append _ _ 4 l4
  have hD4 : ts.drop 4 = padNat 2 mo ++ (padNat 2 d ++ (padNat 2 h ++ (padNat 2 mi ++ padNat 2 s))) := by
    rw [hT]; exact drop_len_append _ _ 4 l4
  have e46 : (ts.drop 4).drop 2 = ts.drop 6 := by rw [List.drop_drop]
  have hD6 : ts.drop 6 = padNat 2 d ++ (padNat 2 h ++ (padNat 2 mi ++ padNat 2 s)) := by
    rw [← e46, hD4]
    exact drop_len_append _ _ 2 lmo
  have e68 : (ts.drop 6).drop 2 = ts.drop 8 := by rw [List.drop_drop]
  have hD8 : ts.drop 8 = padNat 2 h ++ (padNat 2 mi ++ padNat 2 s) := by
    rw [← e68, hD6]
    exact drop_len_append _ _ 2 ld
  have e810 : (ts.drop 8).drop 2 = ts.drop 10 := by rw [List.drop_drop]
  have hD10 : ts.drop 10 = padNat 2 mi ++ padNat 2 s := by
    rw [← e810, hD8]
    exact drop_len_append _ _ 2 lh
  have e1012 : (ts.drop 10).drop 2 = ts.drop 12 := by rw [List.drop_drop]
  have hD12 : ts.drop 12 = padNat 2 s := by
    rw [← e1012, hD10]
    exact drop_len_append _ _ 2 lmi
  have hM : (ts.drop 4).take 2 = padNat 2 mo := by
    rw [hD4]; exact take_len_append _ _ 2 lmo
  have hDay : (ts.drop 6).take 2 = padNat 2 d := by
    rw [hD6]; exact take_len_append _ _ 2 ld
  have hH : (ts.drop 8).take 2 = padNat 2 h := by
    rw [hD8]; exact take_len_append _ _ 2 lh
  have hMi : (ts.drop 10).take 2 = padNat 2 mi := by
    rw [hD10]; exact take_len_append _ _ 2 lmi
  have hS : (ts.drop 12).take 2 = padNat 2 s := by
    rw [hD12, List.take_of_length_le (by omega)]
  have hne : ts ≠ [] := by
    intro hh2; rw [hh2] at hlen; simp at hlen
  have hcond : ¬ (ts = [] ∨ ts.length < 14) := by
    rw [hlen]; simp [hne]
  constructor
  · have hsp : splitOnChar ' ' ts = [ts] := splitOnChar_no_sep ' ' ts hnospace
    unfold parseDate
    rw [hsp]
    simp only [List.head?_cons, Option.getD_some]
    rw [if_neg hcond]
    rw [ht4, hM, hDay, hH, hMi, hS]
    rw [parseIntJS_padNat 4 y (by omega) (by omega),
      parseIntJS_padNat 2 mo (by omega) (by omega),
      parseIntJS_padNat 2 d (by omega) (by omega),
      parseIntJS_padNat 2 h (by omega) (by omega),
      parseIntJS_padNat 2 mi (by omega) (by omega),
      parseIntJS_padNat 2 s (by omega) (by omega)]
    simp only [Option.map_some, List.drop_one, List.tail_cons]
    show JsDateResult.ok (dateUTCms y ((mo : Int) - 1) d h mi s - 0) =
      JsDateResult.ok (utcMillis y mo d h mi s)
    rw [sub_zero, dateUTCms_eq_utcMillis _ _ _ _ _ _ (by exact_mod_cast hy1)
      (by exact_mod_cast hmo1) (by exact_mod_cast hmo2)]
  · have hO : renderOffset sign oh om = ' ' :: (sign :: (padNat 2 oh ++ padNat 2 om)) := by
      simp [renderOffset, List.append_assoc]
    have hsignsp : sign ≠ ' ' := by
      rcases hsign with rfl | rfl <;> decide
    have hoffdig : ∀ c ∈ padNat 2 oh ++ padNat 2 om, c ≠ ' ' := by
      intro c hc
      rw [List.mem_append] at hc
      rcases hc with hc | hc <;>
        exact (digit_ne_sign c (padNat_all_digits _ _ c hc)).2.2
    have hsp2 : splitOnChar ' ' (ts ++ renderOffset sign oh om) =
        [ts, sign :: (padNat 2 oh ++ padNat 2 om)] := by
      rw [hO, splitOnChar_append ' ' ts _ hnospace,
        splitOnChar_no_sep ' ' _ (by
          intro c hc
          rcases List.mem_cons.mp hc with rfl | hc2
          · exact hsignsp
          · exact hoffdig c hc2)]
    unfold parseDate
    rw [hsp2]
    simp only [List.head?_cons, Option.getD_some]
    rw [if_neg hcond]
    rw [ht4, hM, hDay, hH, hMi, hS]
    rw [parseIntJS_padNat 4 y (by omega) (by omega),
      parseIntJS_padNat 2 mo (by omega) (by omega),
      parseIntJS_padNat 2 d (by omega) (by omega),
      parseIntJS_padNat 2 h (by omega) (by omega),
      parseIntJS_padNat 2 mi (by omega) (by omega),
      parseIntJS_padNat 2 s (by omega) (by omega)]
    simp only [Option.map_some, List.drop_one, List.tail_cons]
    rw [if_neg (show ¬ sign :: (padNat 2 oh ++ padNat 2 om) = [] by simp)]
    rw [take_len_append _ _ 2 loh]
    have homstr2 : (List.drop 3 (sign :: (padNat 2 oh ++ padNat 2 om))).take 2 = padNat 2 om := by
      show ((padNat 2 oh ++ padNat 2 om).drop 2).take 2 = padNat 2 om
      rw [drop_len_append _ _ 2 loh, List.take_of_length_le (by omega)]
    rw [homstr2]
    rw [if_neg (by intro hc; rw [hc] at loh; simp at loh),
      if_neg (by intro hc; rw [hc] at lom; simp at lom)]
    rw [parseIntJS_padNat 2 oh (by omega) (by omega),
      parseIntJS_padNat 2 om (by omega) (by omega)]
    simp only [List.head?_cons]
    rcases hsign with rfl | rfl
    · rw [if_pos rfl]
      show JsDateResult.ok (dateUTCms y ((mo : Int) - 1) d h mi s -
          1 * ((oh : Int) * 60 + om) * 60000) =
        JsDateResult.ok (utcMillis y mo d h mi s -
          (if ('+' : Char) = '+' then 1 else -1) * ((oh : Int) * 60 + (om : Int)) * 60000)
      rw [if_pos rfl, dateUTCms_eq_utcMillis _ _ _ _ _ _ (by exact_mod_cast hy1)
        (by exact_mod_cast hmo1) (by exact_mod_cast hmo2)]
    · rw [if_neg (by decide)]
      show JsDateResult.ok (dateUTCms y ((mo : Int) - 1) d h mi s -
          (-1) * ((oh : Int) * 60 + om) * 60000) =
        JsDateResult.ok (utcMillis y mo d h mi s -
          (if ('-' : Char) = '+' then 1 else -1) * ((oh : Int) * 60 + (om : Int)) * 60000)
      rw [if_neg (by decide), dateUTCms_eq_utcMillis _ _ _ _ _ _ (by exact_mod_cast hy1)
        (by exact_mod_cast hmo1) (by exact_mod_cast hmo2)]


/-- Witness for C7: the specification's example
`"20240101120000 +0200"` parses to the UTC instant `2024-01-01T10:00:00Z`
(epoch 1704103200000 ms). -/
theorem c7_witness :
    parseDate ("20240101120000 +0200".data) = .ok 1704103200000 := by
  have heq : ("20240101120000 +0200".data : JsString) =
      renderTimestamp 2024 1 1 12 0 0 ++ renderOffset '+' 2 0 := by decide
  rw [heq, (c7_parse_date 2024 1 1 12 0 0 2 0 '+' (by omega) (by omega) (by omega)
    (by omega) (by omega) (by decide) (by omega) (by omega) (by omega)
    (Or.inl rfl) (by omega) (by omega)).2]
  decide

end Orbiscast
